import Mathlib

/-!
Verification development for the connectrpc-catalog schema-and-invocation
engine.  The Go sources are shallowly embedded: Go maps become association
lists over String keys, timestamps become natural numbers, and every
external effect (HTTP calls, gRPC dials, the JSON library, the random
source) becomes an explicit oracle parameter.  All definitions follow the
Go code in internal/invoker/invoker.go, internal/registry (registry.go),
internal/session (session.go), internal/server/server.go and
internal/loader (loader.go), function by function.
-/

namespace CMap

/-- Go map lookup, m[k]: first binding of the key wins. -/
def lookup (k : String) : List (String × α) → Option α
  | [] => none
  | (k', v) :: rest => if k' = k then some v else lookup k rest

/-- Go map store, m[k] = v: replace the binding in place, or append. -/
def insert (k : String) (v : α) : List (String × α) → List (String × α)
  | [] => [(k, v)]
  | (k', v') :: rest => if k' = k then (k, v) :: rest else (k', v') :: insert k v rest

/-- Go delete(m, k): drop the first binding of the key. -/
def erase (k : String) : List (String × α) → List (String × α)
  | [] => []
  | (k', v') :: rest => if k' = k then rest else (k', v') :: erase k rest

/-- The keys of the map, in storage order. -/
def keys (m : List (String × α)) : List String := m.map Prod.fst

@[simp] theorem lookup_nil (k : String) : lookup k ([] : List (String × α)) = none := rfl

theorem lookup_cons (k k' : String) (v : α) (rest : List (String × α)) :
    lookup k ((k', v) :: rest) = if k' = k then some v else lookup k rest := rfl

@[simp] theorem lookup_insert_self (k : String) (v : α) (m : List (String × α)) :
    lookup k (insert k v m) = some v := by
  induction m with
  | nil => simp [insert, lookup]
  | cons hd tl ih =>
      obtain ⟨k', v'⟩ := hd
      by_cases h : k' = k
      · simp [insert, lookup, h]
      · simp [insert, lookup, h, ih]

theorem lookup_insert_ne (k k' : String) (v : α) (m : List (String × α)) (h : k' ≠ k) :
    lookup k (insert k' v m) = lookup k m := by
  induction m with
  | nil => simp [insert, lookup, h]
  | cons hd tl ih =>
      obtain ⟨k'', v'⟩ := hd
      by_cases h2 : k'' = k'
      · subst h2
        simp [insert, lookup, h]
      · have h' : ¬ (k = k') := fun hx => h hx.symm
        by_cases h3 : k'' = k <;> simp [insert, lookup, h2, h3, h', ih]

theorem insert_eq_of_lookup (k : String) (v : α) (m : List (String × α))
    (h : lookup k m = some v) : insert k v m = m := by
  induction m with
  | nil => simp [lookup] at h
  | cons hd tl ih =>
      obtain ⟨k', v'⟩ := hd
      by_cases h2 : k' = k
      · subst h2
        simp [lookup] at h
        simp [insert, h]
      · simp [lookup, h2] at h
        simp [insert, h2, ih h]

theorem length_insert (k : String) (v : α) (m : List (String × α)) :
    (insert k v m).length = if (lookup k m).isSome then m.length else m.length + 1 := by
  induction m with
  | nil => simp [insert, lookup]
  | cons hd tl ih =>
      obtain ⟨k', v'⟩ := hd
      by_cases h : k' = k
      · simp [insert, lookup, h]
      · simp only [insert, lookup, h, if_false, List.length_cons, ih]
        by_cases h2 : (lookup k tl).isSome <;> simp [h2]

theorem length_insert_le (k : String) (v : α) (m : List (String × α)) :
    (insert k v m).length ≤ m.length + 1 := by
  rw [length_insert]
  by_cases h : (lookup k m).isSome <;> simp [h]

theorem length_erase_le (k : String) (m : List (String × α)) :
    (erase k m).length ≤ m.length := by
  induction m with
  | nil => simp [erase]
  | cons hd tl ih =>
      obtain ⟨k', v'⟩ := hd
      by_cases h : k' = k
      · simp [erase, h]
      · simp only [erase, h, if_false, List.length_cons]
        omega

theorem length_erase_of_mem (k : String) (m : List (String × α))
    (h : (lookup k m).isSome) : (erase k m).length + 1 = m.length := by
  induction m with
  | nil => simp [lookup] at h
  | cons hd tl ih =>
      obtain ⟨k', v'⟩ := hd
      by_cases h2 : k' = k
      · simp [erase, h2]
      · simp [lookup, h2] at h
        simp [erase, h2, ih h]

theorem mem_keys_insert (k k' : String) (v : α) (m : List (String × α))
    (h : k' ∈ keys (insert k v m)) : k' = k ∨ k' ∈ keys m := by
  induction m with
  | nil =>
      simp [insert, keys] at h
      exact Or.inl h
  | cons hd tl ih =>
      obtain ⟨k2, v2⟩ := hd
      by_cases h2 : k2 = k
      · simp [insert, h2, keys] at h
        rcases h with h | h
        · exact Or.inl h
        · exact Or.inr (by simp [keys]; right; exact h)
      · simp [insert, h2, keys] at h
        rcases h with h | h
        · exact Or.inr (by simp [keys]; left; exact h)
        · rcases ih (by simpa [keys] using h) with h3 | h3
          · exact Or.inl h3
          · exact Or.inr (by simp [keys] at h3 ⊢; right; exact h3)

theorem lookup_isSome_of_mem (k : String) (v : α) (m : List (String × α))
    (h : (k, v) ∈ m) : (lookup k m).isSome := by
  induction m with
  | nil => simp at h
  | cons hd tl ih =>
      obtain ⟨k', v'⟩ := hd
      rcases List.mem_cons.mp h with h2 | h2
      · rw [Prod.ext_iff] at h2
        obtain ⟨h4, h5⟩ := h2
        simp only at h4 h5
        subst h4
        simp [lookup]
      · by_cases h3 : k' = k <;> simp [lookup, h3, ih h2]

/-- Store a list of bindings in order, as a Go for-range loop of map
stores does. -/
def insertAll (ps : List (String × α)) (m : List (String × α)) : List (String × α) :=
  ps.foldl (fun acc p => insert p.1 p.2 acc) m

theorem keys_nodup_insert (k : String) (v : α) (m : List (String × α))
    (h : (keys m).Nodup) : (keys (insert k v m)).Nodup := by
  induction m with
  | nil => simp [insert, keys]
  | cons hd tl ih =>
      obtain ⟨k', v'⟩ := hd
      by_cases h2 : k' = k
      · subst h2
        simpa [insert, keys] using h
      · simp only [keys, List.map_cons, List.nodup_cons] at h
        have htl := ih h.2
        simp only [insert, h2, if_false, keys, List.map_cons, List.nodup_cons]
        refine ⟨?_, htl⟩
        intro hmem
        rcases mem_keys_insert k k' v tl (by simpa [keys] using hmem) with h3 | h3
        · exact h2 h3
        · exact h.1 h3

end CMap

namespace Proto

/-- The protobuf field kinds, as in descriptorpb FieldDescriptorProto.Type
(the values getJSONType switches on via field.GetType().String()). -/
inductive FieldType
  | tDouble | tFloat | tInt64 | tUint64 | tInt32 | tFixed64 | tFixed32 | tBool
  | tString | tGroup | tMessage | tBytes | tUint32 | tEnum | tSfixed32 | tSfixed64
  | tSint32 | tSint64
deriving DecidableEq

/-- One field of a message.  typeName is the fully-qualified name of the
referenced message type when the field is message- (or group-) typed,
mirroring field.GetMessageType().GetFullyQualifiedName() of the resolved
descriptor. -/
structure FieldDescriptorProto where
  name : String
  type : FieldType
  typeName : String := ""
deriving DecidableEq

/-- field.GetMessageType() != nil holds exactly for message and group
typed fields of the resolved descriptor graph. -/
def FieldDescriptorProto.hasMessageType (f : FieldDescriptorProto) : Bool :=
  f.type = FieldType.tMessage || f.type = FieldType.tGroup

/-- A message descriptor: name, fields, and nested message types. -/
inductive MessageD
  | mk : String → List FieldDescriptorProto → List MessageD → MessageD

def MessageD.name : MessageD → String
  | .mk n _ _ => n

def MessageD.fields : MessageD → List FieldDescriptorProto
  | .mk _ fs _ => fs

def MessageD.nested : MessageD → List MessageD
  | .mk _ _ ns => ns

/-- A method descriptor as the registry and invoker see it. -/
structure MethodDescriptor where
  name : String
  inputType : String
  outputType : String
  documentation : String := ""
  clientStreaming : Bool := false
  serverStreaming : Bool := false
deriving DecidableEq

/-- A service descriptor: simple name and methods. -/
structure ServiceD where
  name : String
  methods : List MethodDescriptor := []
  documentation : String := ""
deriving DecidableEq

/-- One file of a FileDescriptorSet.  Dependencies are not modelled: the
registry's desc.CreateFileDescriptor path only succeeds for files whose
imports are already satisfied, and no claim depends on import graphs. -/
structure FileD where
  name : String
  package : String := ""
  services : List ServiceD := []
  messageTypes : List MessageD := []
  enumTypes : List String := []

/-- Fully-qualified name: package-qualified unless the package is empty,
as computed both by GetDescriptorInfo and by GetFullyQualifiedName. -/
def fqn (pkg n : String) : String :=
  if pkg = "" then n else pkg ++ "." ++ n

/-- The fully-qualified-name prefix contributed by a package. -/
def pkgQualifier (pkg : String) : String :=
  if pkg = "" then "" else pkg ++ "."

end Proto

namespace Invoker

/-- DefaultMaxConnections = 100 in invoker.go. -/
def DefaultMaxConnections : Int := 100

/-- DefaultConnectionTTL = 5 minutes, in seconds. -/
def DefaultConnectionTTL : Nat := 300

/-- ConnectionIdleTimeout = 2 minutes, in seconds. -/
def ConnectionIdleTimeout : Nat := 120

/-- The observable gRPC channel state (conn.GetState()); the pool logic
only distinguishes SHUTDOWN (and GetConnectionStats also
TRANSIENT_FAILURE) from the rest. -/
inductive ConnState
  | ready | connecting | idle | transientFailure | shutdown
deriving DecidableEq

/-- connectionMetadata: timestamps plus the channel state observed at the
time the pool inspects it. -/
structure ConnMeta where
  createdAt : Nat
  lastUsed : Nat
  state : ConnState
deriving DecidableEq

/-- The Invoker: the connection pool map and its limits.  The Go struct
carries no lock of any kind. -/
structure InvokerState where
  connections : List (String × ConnMeta)
  maxConnections : Int
  connectionTTL : Nat
deriving DecidableEq

/-- Invoker.New(). -/
def new : InvokerState :=
  { connections := [], maxConnections := DefaultMaxConnections,
    connectionTTL := DefaultConnectionTTL }

/-- Invoker.NewWithLimits(maxConnections, ttl). -/
def newWithLimits (maxConnections : Int) (ttl : Nat) : InvokerState :=
  { connections := [], maxConnections := maxConnections, connectionTTL := ttl }

/-- The pool key fmt.Sprintf of getConnection: endpoint, %v of the bool,
server name, colon-separated. -/
def connKey (endpoint : String) (useTLS : Bool) (serverName : String) : String :=
  endpoint ++ ":" ++ (if useTLS then "true" else "false") ++ ":" ++ serverName

/-- The eviction test of cleanupStaleConnections: age at least the TTL,
idle at least the idle timeout, or state SHUTDOWN. -/
def isStale (ttl : Nat) (now : Nat) (c : ConnMeta) : Bool :=
  (now - c.createdAt ≥ ttl) || (now - c.lastUsed ≥ ConnectionIdleTimeout) ||
    (c.state = ConnState.shutdown)

/-- cleanupStaleConnections, on the raw pool map. -/
def poolCleanup (ttl : Nat) (now : Nat) (pool : List (String × ConnMeta)) :
    List (String × ConnMeta) :=
  pool.filter (fun e => !(isStale ttl now e.2))

/-- The scan of evictOldestConnection: track the key with the strictly
earliest lastUsed, starting from the empty key and zero time. -/
def oldestScan (pool : List (String × ConnMeta)) : String × Nat :=
  pool.foldl
    (fun acc e => if acc.1 = "" || e.2.lastUsed < acc.2 then (e.1, e.2.lastUsed) else acc)
    ("", 0)

/-- evictOldestConnection, on the raw pool map. -/
def evictOldestPool (pool : List (String × ConnMeta)) : List (String × ConnMeta) :=
  let acc := oldestScan pool
  if acc.1 = "" then pool else CMap.erase acc.1 pool

/-- cleanupStaleConnections on the invoker. -/
def cleanupStaleConnections (inv : InvokerState) (now : Nat) : InvokerState :=
  { inv with connections := poolCleanup inv.connectionTTL now inv.connections }

/-- evictOldestConnection on the invoker. -/
def evictOldestConnection (inv : InvokerState) : InvokerState :=
  { inv with connections := evictOldestPool inv.connections }

/-- The tail of getConnection after a miss (or after an expired hit was
deleted): capacity check with LRU eviction, then the dial, whose outcome
is the oracle dialErr (none = success).  On success the fresh channel is
cached; on failure nothing is cached and the error is returned. -/
def getConnectionMiss (inv : InvokerState) (endpoint key : String) (now : Nat)
    (dialErr : Option String) : Except String String × InvokerState :=
  let inv2 :=
    if (inv.connections.length : Int) ≥ inv.maxConnections then evictOldestConnection inv
    else inv
  match dialErr with
  | some e =>
      (Except.error ("failed to dial " ++ endpoint ++ ": " ++ e), inv2)
  | none =>
      (Except.ok key,
        { inv2 with connections :=
            CMap.insert key ⟨now, now, ConnState.ready⟩ inv2.connections })

/-- getConnection: sweep stale entries, then hit (validity re-checked,
lastUsed bumped) or miss (capacity check, dial, cache).  The returned
String stands for the channel, identified by its pool key. -/
def getConnection (inv : InvokerState) (endpoint : String) (useTLS : Bool)
    (serverName : String) (now : Nat) (dialErr : Option String) :
    Except String String × InvokerState :=
  let key := connKey endpoint useTLS serverName
  let inv1 := cleanupStaleConnections inv now
  match CMap.lookup key inv1.connections with
  | some meta =>
      if meta.state ≠ ConnState.shutdown ∧ now - meta.createdAt < inv1.connectionTTL then
        (Except.ok key,
          { inv1 with connections :=
              CMap.insert key { meta with lastUsed := now } inv1.connections })
      else
        getConnectionMiss
          { inv1 with connections := CMap.erase key inv1.connections }
          endpoint key now dialErr
  | none => getConnectionMiss inv1 endpoint key now dialErr

end Invoker

namespace Invoker

/-- Transport is the catalogv1 int32 enum: CONNECT = 0, GRPC = 1,
GRPC_WEB = 2. -/
def TRANSPORT_CONNECT : Int := 0

def TRANSPORT_GRPC : Int := 1

def TRANSPORT_GRPC_WEB : Int := 2

/-- InvokeRequest of invoker.go.  RequestJSON carries the raw bytes as a
string. -/
structure InvokeRequest where
  endpoint : String
  serviceName : String
  methodName : String
  requestJSON : String
  useTLS : Bool := false
  serverName : String := ""
  timeoutSeconds : Int := 0
  metadata : List (String × String) := []
  methodDesc : Option Proto.MethodDescriptor := none
  transport : Int := 0
deriving DecidableEq

/-- InvokeResponse of invoker.go. -/
structure InvokeResponse where
  success : Bool
  responseJSON : String := ""
  error : String := ""
  metadata : List (String × String) := []
  statusCode : Int := 0
  statusMessage : String := ""
deriving DecidableEq

/-- The upstream HTTP exchange as invokeConnect observes it: status code
and status line of the response, its headers, and the outcome of reading
the body. -/
structure HttpResponse where
  statusCode : Nat
  status : String := ""
  headers : List (String × List String) := []
  bodyResult : Except String String

/-- The external effects of one invokeConnect call: the error of
http.NewRequestWithContext if any, the outcome of client.Do, and the
behaviour of json.Unmarshal on the error body when decoded into the
Connect error struct (none = unmarshal error; otherwise code and
message, either possibly empty). -/
structure ConnectOracle where
  newRequestErr : Option String := none
  doResult : Except String HttpResponse
  parseConnectError : String → Option (String × String)

/-- The response-header projection of invokeConnect: first value per
header name. -/
def headerMetadata (headers : List (String × List String)) : List (String × String) :=
  headers.filterMap (fun kv => kv.2.head?.map (fun v => (kv.1, v)))

/-- invokeConnect.  Every branch returns a response and a nil Go error;
the Except layer therefore always carries Except.ok. -/
def invokeConnect (req : InvokeRequest) (o : ConnectOracle) : Except String InvokeResponse :=
  match o.newRequestErr with
  | some e => Except.ok { success := false, error := "failed to create request: " ++ e }
  | none =>
    match o.doResult with
    | Except.error e => Except.ok { success := false, error := "request failed: " ++ e }
    | Except.ok resp =>
      match resp.bodyResult with
      | Except.error e =>
          Except.ok { success := false, error := "failed to read response: " ++ e }
      | Except.ok body =>
        let respMetadata := headerMetadata resp.headers
        let fallback : InvokeResponse :=
          { success := false,
            error := "HTTP " ++ toString resp.statusCode ++ ": " ++ body,
            statusCode := (resp.statusCode : Int),
            statusMessage := resp.status,
            metadata := respMetadata }
        if resp.statusCode ≠ 200 then
          match o.parseConnectError body with
          | some (code, msg) =>
            if msg ≠ "" then
              Except.ok
                { success := false,
                  error := msg,
                  statusCode := (resp.statusCode : Int),
                  statusMessage := code,
                  metadata := respMetadata }
            else
              Except.ok fallback
          | none => Except.ok fallback
        else
          Except.ok
            { success := true,
              responseJSON := body,
              statusCode := 0,
              statusMessage := "OK",
              metadata := respMetadata }

/-- A Go error from stub.InvokeRpc: its Error() text, and the result of
status.FromError when that extraction succeeds. -/
structure GrpcInvokeErr where
  text : String
  fromStatus : Option (Int × String) := none
deriving DecidableEq

/-- extractGRPCStatus of invoker.go. -/
def extractGRPCStatus (err : Option GrpcInvokeErr) : Int × String :=
  match err with
  | none => (0, "OK")
  | some e =>
    match e.fromStatus with
    | some cm => cm
    | none => (2, e.text)

/-- mergeMetadata of invoker.go: headers first value per key, trailers
first value under the trailer- prefix. -/
def mergeMetadata (header trailer : List (String × List String)) :
    List (String × String) :=
  (header.filterMap (fun kv => kv.2.head?.map (fun v => (kv.1, v)))) ++
  (trailer.filterMap (fun kv => kv.2.head?.map (fun v => ("trailer-" ++ kv.1, v))))

/-- The successful leg of a dynamic gRPC invocation: captured headers and
trailers, whether the response cast to a dynamic message, and the
outcome of MarshalJSON on it. -/
structure GrpcInvokeOk where
  header : List (String × List String) := []
  trailer : List (String × List String) := []
  castOk : Bool := true
  marshalResult : Except String String

/-- The external effects of one invokeGRPC call: the dial outcome, the
outcome of UnmarshalJSON of the request bytes into the dynamic input
message, and the invocation outcome with its captured metadata. -/
structure GrpcOracle where
  dialErr : Option String := none
  unmarshalErr : Option String := none
  invokeResult : Except (GrpcInvokeErr × List (String × List String) × List (String × List String)) GrpcInvokeOk

/-- invokeGRPC.  A nil method descriptor or a streaming descriptor is
returned as a Go error (Except.error); everything downstream is encoded
in the response. -/
def invokeGRPC (inv : InvokerState) (req : InvokeRequest) (now : Nat) (o : GrpcOracle) :
    Except String InvokeResponse × InvokerState :=
  match req.methodDesc with
  | none => (Except.error "method descriptor is required for gRPC transport", inv)
  | some md =>
    if md.clientStreaming || md.serverStreaming then
      (Except.error "streaming methods not supported (use InvokeUnary for unary RPCs only)",
        inv)
    else
      match getConnection inv req.endpoint req.useTLS req.serverName now o.dialErr with
      | (Except.error e, inv') =>
          (Except.ok { success := false, error := "connection failed: " ++ e }, inv')
      | (Except.ok _, inv') =>
        match o.unmarshalErr with
        | some e =>
            (Except.ok { success := false, error := "invalid request JSON: " ++ e }, inv')
        | none =>
          match o.invokeResult with
          | Except.error (ge, hdr, tra) =>
              let cm := extractGRPCStatus (some ge)
              let r : InvokeResponse :=
                { success := false,
                  error := ge.text,
                  statusCode := cm.1,
                  statusMessage := cm.2,
                  metadata := mergeMetadata hdr tra }
              (Except.ok r, inv')
          | Except.ok g =>
            if !g.castOk then
              (Except.ok { success := false, error := "response is not a dynamic message" },
                inv')
            else
              match g.marshalResult with
              | Except.error e =>
                  (Except.ok
                    { success := false, error := "failed to marshal response: " ++ e },
                    inv')
              | Except.ok rj =>
                  let r : InvokeResponse :=
                    { success := true,
                      responseJSON := rj,
                      statusCode := 0,
                      statusMessage := "OK",
                      metadata := mergeMetadata g.header g.trailer }
                  (Except.ok r, inv')

/-- InvokeUnary: route by transport.  GRPC goes to invokeGRPC; GRPC_WEB
and every other value (CONNECT = 0 included) go to invokeConnect, which
leaves the pool untouched. -/
def invokeUnary (inv : InvokerState) (req : InvokeRequest) (now : Nat)
    (co : ConnectOracle) (gco : GrpcOracle) : Except String InvokeResponse × InvokerState :=
  if req.transport = TRANSPORT_GRPC then invokeGRPC inv req now gco
  else (invokeConnect req co, inv)

/-- ValidateRequest of invoker.go, parameterised by the behaviour of
json.Unmarshal on the request bytes (true = well-formed JSON).  Returns
the Go error text, or none when the request passes. -/
def validateRequest (jsonWellFormed : String → Bool) (req : InvokeRequest) :
    Option String :=
  if req.endpoint = "" then some "endpoint is required"
  else if req.serviceName = "" then some "service name is required"
  else if req.methodName = "" then some "method name is required"
  else if req.methodDesc.isNone then some "method descriptor is required"
  else if req.requestJSON = "" then some "request JSON is required"
  else if !(jsonWellFormed req.requestJSON) then some "invalid request JSON"
  else none

end Invoker

namespace Registry

open Proto

mutual

/-- Collect a message and, depth-first, its nested messages, keyed by
fully-qualified name — the walk of Registry.indexMessage.  pre is the
enclosing fully-qualified prefix ending in a dot (or empty). -/
def collectMessage (pre : String) : MessageD → List (String × MessageD)
  | .mk n fs ns => ((pre ++ n), MessageD.mk n fs ns) :: collectMessageList (pre ++ n ++ ".") ns

/-- Collect a list of messages in order, as indexMessage does over
GetNestedMessageTypes. -/
def collectMessageList (pre : String) : List MessageD → List (String × MessageD)
  | [] => []
  | m :: rest => collectMessage pre m ++ collectMessageList pre rest

end

end Registry

namespace Registry

open Proto

/-- A service as stored in the registry index: its fully-qualified name,
the package of its file, and the underlying descriptor. -/
structure IndexedService where
  fqn : String
  pkg : String
  svc : ServiceD

/-- The Registry of registry.go: three maps from names to descriptors.
The sync.RWMutex of the Go struct serialises access and has no
behavioural content in a sequential embedding. -/
structure State where
  files : List (String × FileD)
  services : List (String × IndexedService)
  messages : List (String × MessageD)

/-- Registry.New(). -/
def new : State := { files := [], services := [], messages := [] }

/-- The service bindings a file contributes, keyed by fully-qualified
name, in declaration order. -/
def svcPairs (f : FileD) : List (String × IndexedService) :=
  f.services.map (fun s => (fqn f.package s.name, ⟨fqn f.package s.name, f.package, s⟩))

/-- The message bindings a file contributes (top-level messages and,
recursively, nested ones), keyed by fully-qualified name. -/
def msgPairs (f : FileD) : List (String × MessageD) :=
  collectMessageList (pkgQualifier f.package) f.messageTypes

/-- The fully-qualified symbols a file declares at service, message and
enum level. -/
def symbolsOfFile (f : FileD) : List String :=
  (svcPairs f).map Prod.fst ++ (msgPairs f).map Prod.fst ++
    f.enumTypes.map (fqn f.package)

/-- Models the success condition of protodesc.NewFiles(fds), the
validation step Register runs before indexing: the Go protobuf registry
rejects a set that registers the same file path twice or conflicting
fully-qualified symbol names (protoregistry.Files.RegisterFile). -/
def newFilesOk (fds : List FileD) : Bool :=
  decide ((fds.map FileD.name).Nodup) && decide ((fds.flatMap symbolsOfFile).Nodup)

/-- The per-file indexing body of Register: store the file, index its
services, index its messages recursively. -/
def registerFile (r : State) (f : FileD) : State :=
  { files := CMap.insert f.name f r.files,
    services := CMap.insertAll (svcPairs f) r.services,
    messages := CMap.insertAll (msgPairs f) r.messages }

/-- Registry.Register: validate the set via protodesc.NewFiles, then
index every file in order.  desc.CreateFileDescriptor is not modelled to
fail: files carry no unresolved imports here (see FileD). -/
def register (r : State) (fds : List FileD) : Except String State :=
  if newFilesOk fds then Except.ok (fds.foldl registerFile r)
  else Except.error "failed to create file registry"

/-- MethodInfo of registry.go. -/
structure MethodInfo where
  name : String
  inputType : String
  outputType : String
  documentation : String := ""
  clientStreaming : Bool := false
  serverStreaming : Bool := false
deriving DecidableEq

/-- ServiceInfo of registry.go. -/
structure ServiceInfo where
  name : String
  package : String
  methods : List MethodInfo
  documentation : String := ""
deriving DecidableEq

/-- The MethodInfo projection used by ListServices and GetServiceSchema. -/
def methodInfoOf (m : MethodDescriptor) : MethodInfo :=
  { name := m.name, inputType := m.inputType, outputType := m.outputType,
    documentation := m.documentation, clientStreaming := m.clientStreaming,
    serverStreaming := m.serverStreaming }

/-- The ServiceInfo projection of one indexed service. -/
def serviceInfoOf (s : IndexedService) : ServiceInfo :=
  { name := s.fqn, package := s.pkg, methods := s.svc.methods.map methodInfoOf,
    documentation := s.svc.documentation }

/-- Registry.ListServices: project every indexed service (Go map order is
unspecified; the model uses storage order). -/
def listServices (r : State) : List ServiceInfo :=
  r.services.map (fun p => serviceInfoOf p.2)

/-- Registry.GetService. -/
def getService (r : State) (name : String) : Except String IndexedService :=
  match CMap.lookup name r.services with
  | none => Except.error ("service not found: " ++ name)
  | some s => Except.ok s

/-- Registry.GetMethodDescriptor: service by fully-qualified name, then
method by simple name (svc.FindMethodByName). -/
def getMethodDescriptor (r : State) (serviceName methodName : String) :
    Except String MethodDescriptor :=
  match CMap.lookup serviceName r.services with
  | none => Except.error ("service not found: " ++ serviceName)
  | some s =>
    match s.svc.methods.find? (fun m => m.name = methodName) with
    | none => Except.error ("method not found: " ++ serviceName ++ "." ++ methodName)
    | some m => Except.ok m

/-- Registry.GetMessageDescriptor. -/
def getMessageDescriptor (r : State) (msgName : String) : Except String MessageD :=
  match CMap.lookup msgName r.messages with
  | none => Except.error ("message not found: " ++ msgName)
  | some m => Except.ok m

/-- getJSONType of registry.go: the switch over the protobuf field kind
names; the default arm answers string. -/
def getJSONType (f : FieldDescriptorProto) : String :=
  match f.type with
  | .tDouble => "number"
  | .tFloat => "number"
  | .tInt32 => "integer"
  | .tInt64 => "integer"
  | .tUint32 => "integer"
  | .tUint64 => "integer"
  | .tSint32 => "integer"
  | .tSint64 => "integer"
  | .tFixed32 => "integer"
  | .tFixed64 => "integer"
  | .tSfixed32 => "integer"
  | .tSfixed64 => "integer"
  | .tBool => "boolean"
  | .tString => "string"
  | .tBytes => "string"
  | .tMessage => "object"
  | .tEnum => "string"
  | .tGroup => "string"

/-- The per-field fragment of generateJSONSchema: the field property
object, with the $ref line exactly when the field has a message type. -/
def schemaFieldFragment (f : FieldDescriptorProto) : String :=
  "\n    \"" ++ f.name ++ "\": \x7b\n      \"type\": \"" ++ getJSONType f ++ "\"" ++
    (if f.hasMessageType then
      ",\n      \"$ref\": \"#/definitions/" ++ f.typeName ++ "\""
    else "") ++ "\n    \x7d"

/-- The field loop of generateJSONSchema: a comma before every fragment
except the first. -/
def schemaFieldsLoop : List FieldDescriptorProto → Bool → String
  | [], _ => ""
  | f :: rest, isFirst =>
      (if isFirst then "" else ",") ++ schemaFieldFragment f ++ schemaFieldsLoop rest false

/-- generateJSONSchema of registry.go, verbatim string construction. -/
def generateJSONSchema (msg : MessageD) : String :=
  "\x7b\n  \"type\": \"object\",\n  \"title\": \"" ++ msg.name ++
    "\",\n  \"properties\": \x7b" ++ schemaFieldsLoop msg.fields true ++ "\n  \x7d\n\x7d"

/-- One step of collectMessageSchema: visit a message by fully-qualified
name unless seen, record its schema, then recurse into message-typed
fields and nested types.  Recursion is bounded by fuel; every productive
step consumes one unseen entry of the registry message map, so
r.messages.length + 1 units suffice, matching the termination argument
of the Go seen-set. -/
def collectSchemaStep (r : State) :
    Nat → List (String × String) × List String → String →
      List (String × String) × List String
  | 0, acc, _ => acc
  | Nat.succ fuel, (schemas, seen), fqnName =>
    if seen.contains fqnName then (schemas, seen)
    else
      match CMap.lookup fqnName r.messages with
      | none => (schemas, seen)
      | some md =>
        let seen' := fqnName :: seen
        let schemas' := CMap.insert fqnName (generateJSONSchema md) schemas
        let acc1 := (md.fields.filter FieldDescriptorProto.hasMessageType).foldl
          (fun a f => collectSchemaStep r fuel a f.typeName) (schemas', seen')
        (md.nested.map (fun n => fqnName ++ "." ++ n.name)).foldl
          (fun a n => collectSchemaStep r fuel a n) acc1

/-- Registry.GetServiceSchema: the service projection plus the schema map
collected from every method input and output type. -/
def getServiceSchema (r : State) (serviceName : String) :
    Except String (ServiceInfo × List (String × String)) :=
  match CMap.lookup serviceName r.services with
  | none => Except.error ("service not found: " ++ serviceName)
  | some s =>
    let fuel := r.messages.length + 1
    let res := s.svc.methods.foldl
      (fun acc m =>
        collectSchemaStep r fuel (collectSchemaStep r fuel acc m.inputType) m.outputType)
      ([], [])
    Except.ok (serviceInfoOf s, res.1)

/-- Registry.Clear. -/
def clear (_ : State) : State := new

/-- Stats of registry.go. -/
structure Stats where
  fileCount : Nat
  serviceCount : Nat
  messageCount : Nat
deriving DecidableEq

/-- Registry.GetStats: the sizes of the three maps. -/
def getStats (r : State) : Stats :=
  { fileCount := r.files.length, serviceCount := r.services.length,
    messageCount := r.messages.length }

/-- Registry.HasService. -/
def hasService (r : State) (name : String) : Bool :=
  (CMap.lookup name r.services).isSome

end Registry

namespace Loader

open Proto

/-- DescriptorInfo of loader.go. -/
structure DescriptorInfo where
  files : Nat
  services : List String
  messages : List String
  enums : List String
deriving DecidableEq

/-- GetDescriptorInfo: a flat, non-recursive summary of the set — every
file counted, and for each file its top-level service, message and enum
names qualified by the package when one is present. -/
def getDescriptorInfo (fds : List FileD) : DescriptorInfo :=
  { files := fds.length,
    services := fds.flatMap (fun f => f.services.map (fun s => fqn f.package s.name)),
    messages := fds.flatMap (fun f => f.messageTypes.map (fun m => fqn f.package m.name)),
    enums := fds.flatMap (fun f => f.enumTypes.map (fqn f.package)) }

end Loader

namespace Session

/-- DefaultSessionTTL = 1 hour, in seconds. -/
def DefaultSessionTTL : Nat := 3600

/-- CleanupInterval = 5 minutes, in seconds. -/
def CleanupInterval : Nat := 300

/-- SessionIDLength = 16 random bytes before hex encoding. -/
def SessionIDLength : Nat := 16

/-- The lowercase hex alphabet of encoding/hex, the characters of the
Go constant hextable = "0123456789abcdef". -/
def hextable : List Char := "0123456789abcdef".data

/-- hex encoding of one byte: high nibble then low nibble from the
table. -/
def hexByte (b : Nat) : String :=
  String.mk [hextable.getD (b % 256 / 16) '0', hextable.getD (b % 16) '0']

/-- hex.EncodeToString over a byte slice. -/
def hexEncode : List Nat → String
  | [] => ""
  | b :: rest => hexByte b ++ hexEncode rest

/-- GenerateID, with the crypto/rand read supplied as input; rand.Read
errors are not modelled (the kernel source never fails). -/
def generateID (randBytes : List Nat) : String := hexEncode randBytes

/-- State of session.go: the per-session registry and invoker with the
two timestamps. -/
structure SessState where
  registry : Registry.State
  invoker : Invoker.InvokerState
  createdAt : Nat
  lastUsed : Nat

/-- Manager of session.go: the session map and the TTL.  The
sync.RWMutex and cleanup channel carry no sequential content. -/
structure Manager where
  sessions : List (String × SessState)
  ttl : Nat

/-- NewManager: non-positive TTL falls back to the default. -/
def newManager (ttl : Nat) : Manager :=
  { sessions := [], ttl := if ttl = 0 then DefaultSessionTTL else ttl }

/-- Manager.GetOrCreate, with the random bytes for a potential new
identifier passed explicitly: a non-empty identifier present in the map
is reused (bumping LastUsed); otherwise a fresh identifier, Registry and
Invoker are minted and stored. -/
def getOrCreate (m : Manager) (sessionID : String) (randBytes : List Nat) (now : Nat) :
    SessState × String × Manager :=
  match (if sessionID ≠ "" then CMap.lookup sessionID m.sessions else none) with
  | some st =>
      let st' := { st with lastUsed := now }
      (st', sessionID, { m with sessions := CMap.insert sessionID st' m.sessions })
  | none =>
      let newID := generateID randBytes
      let st : SessState :=
        { registry := Registry.new, invoker := Invoker.new,
          createdAt := now, lastUsed := now }
      (st, newID, { m with sessions := CMap.insert newID st m.sessions })

/-- Manager.Get: lookup with a LastUsed bump on hit. -/
def get (m : Manager) (sessionID : String) (now : Nat) : Option SessState × Manager :=
  match CMap.lookup sessionID m.sessions with
  | none => (none, m)
  | some st =>
      let st' := { st with lastUsed := now }
      (some st', { m with sessions := CMap.insert sessionID st' m.sessions })

/-- Manager.Delete. -/
def deleteSession (m : Manager) (sessionID : String) : Manager :=
  { m with sessions := CMap.erase sessionID m.sessions }

/-- Manager.cleanup: drop every session idle longer than the TTL. -/
def cleanup (m : Manager) (now : Nat) : Manager :=
  { m with sessions := m.sessions.filter (fun e => !(now - e.2.lastUsed > m.ttl)) }

end Session

namespace Server

open Proto

/-- A Connect response as the handlers build it: the message and the
X-Session-ID header written on it. -/
structure RpcOut (α : Type) where
  msg : α
  sessionHeader : String
deriving DecidableEq

/-- LoadProtosResponse of the catalog schema.  Counts are kept as
naturals; the int32 casts of server.go cannot overflow for realistic
descriptor sets and no claim concerns them. -/
structure LoadProtosResponse where
  success : Bool
  error : String := ""
  serviceCount : Nat := 0
  fileCount : Nat := 0
deriving DecidableEq

/-- ListServicesResponse: the proto conversion of server.go is a
field-by-field copy of the registry projection, so the model carries the
projection itself. -/
structure ListServicesResponse where
  services : List Registry.ServiceInfo
deriving DecidableEq

/-- GetServiceSchemaResponse of the catalog schema. -/
structure GetServiceSchemaResponse where
  service : Option Registry.ServiceInfo := none
  messageSchemas : List (String × String) := []
  error : String := ""
deriving DecidableEq

/-- InvokeGRPCRequest of the catalog schema. -/
structure InvokeGRPCRequest where
  endpoint : String
  service : String
  method : String
  requestJson : String := ""
  useTls : Bool := false
  serverName : String := ""
  timeoutSeconds : Int := 0
  metadata : List (String × String) := []
  transport : Int := 0
deriving DecidableEq

/-- InvokeGRPCResponse of the catalog schema. -/
structure InvokeGRPCResponse where
  success : Bool
  responseJson : String := ""
  error : String := ""
  metadata : List (String × String) := []
  statusCode : Int := 0
  statusMessage : String := ""
deriving DecidableEq

/-- The streaming rejection message of the InvokeGRPC handler. -/
def streamingUnsupportedMsg : String :=
  "streaming methods are not supported in MVP (unary only)"

/-- The CatalogServer: a session manager (server.go). -/
structure CatalogServer where
  sessionManager : Session.Manager

/-- Server.New(). -/
def newServer : CatalogServer :=
  { sessionManager := Session.newManager Session.DefaultSessionTTL }

/-- The result of the loader call the LoadProtos handler makes, supplied
as an oracle: none models a request whose oneof source arm is unset;
some (Except.error e) a loader failure with message e; some (Except.ok
fds) the loaded descriptor set. -/
def LoadOutcome := Option (Except String (List FileD))

/-- LoadProtos handler: get-or-create the session, run the loader,
register into the session registry, answer with the flat counts of
GetDescriptorInfo.  Except.error is a transport-level connect.NewError;
every Except.ok response carries the effective session id in the
X-Session-ID header. -/
def loadProtos (m : Session.Manager) (hdr : String) (randBytes : List Nat) (now : Nat)
    (source : LoadOutcome) :
    Except String (RpcOut LoadProtosResponse × Session.Manager) :=
  let gc := Session.getOrCreate m hdr randBytes now
  let st := gc.1
  let sid := gc.2.1
  let m1 := gc.2.2
  match source with
  | none => Except.error "no source specified in request"
  | some (Except.error e) =>
      Except.ok (⟨{ success := false, error := "failed to load: " ++ e }, sid⟩, m1)
  | some (Except.ok fds) =>
    match Registry.register st.registry fds with
    | Except.error e =>
        Except.ok
          (⟨{ success := false, error := "failed to register descriptors: " ++ e }, sid⟩,
            m1)
    | Except.ok reg' =>
      let st' := { st with registry := reg' }
      let m2 := { m1 with sessions := CMap.insert sid st' m1.sessions }
      let info := Loader.getDescriptorInfo fds
      Except.ok
        (⟨{ success := true, serviceCount := info.services.length,
            fileCount := info.files }, sid⟩, m2)

/-- ListServices handler. -/
def listServicesHandler (m : Session.Manager) (hdr : String) (randBytes : List Nat)
    (now : Nat) : RpcOut ListServicesResponse × Session.Manager :=
  let gc := Session.getOrCreate m hdr randBytes now
  (⟨{ services := Registry.listServices gc.1.registry }, gc.2.1⟩, gc.2.2)

/-- GetServiceSchema handler: empty service name is a transport-level
invalid-argument; registry errors go into the error field. -/
def getServiceSchemaHandler (m : Session.Manager) (hdr : String) (randBytes : List Nat)
    (now : Nat) (serviceName : String) :
    Except String (RpcOut GetServiceSchemaResponse × Session.Manager) :=
  let gc := Session.getOrCreate m hdr randBytes now
  let sid := gc.2.1
  let m1 := gc.2.2
  if serviceName = "" then Except.error "service_name is required"
  else
    match Registry.getServiceSchema gc.1.registry serviceName with
    | Except.error e =>
        Except.ok (⟨{ error := "failed to get service schema: " ++ e }, sid⟩, m1)
    | Except.ok (info, schemas) =>
        Except.ok (⟨{ service := some info, messageSchemas := schemas }, sid⟩, m1)

/-- InvokeGRPC handler: field validation (transport-level), descriptor
lookup and streaming check (failure responses), empty-body and timeout
defaulting, then the session invoker. -/
def invokeGRPCHandler (m : Session.Manager) (hdr : String) (randBytes : List Nat)
    (now : Nat) (req : InvokeGRPCRequest) (co : Invoker.ConnectOracle)
    (gco : Invoker.GrpcOracle) :
    Except String (RpcOut InvokeGRPCResponse × Session.Manager) :=
  let gc := Session.getOrCreate m hdr randBytes now
  let st := gc.1
  let sid := gc.2.1
  let m1 := gc.2.2
  if req.endpoint = "" then Except.error "endpoint is required"
  else if req.service = "" then Except.error "service is required"
  else if req.method = "" then Except.error "method is required"
  else
    match Registry.getMethodDescriptor st.registry req.service req.method with
    | Except.error e =>
        Except.ok (⟨{ success := false, error := "method not found: " ++ e }, sid⟩, m1)
    | Except.ok md =>
      if md.clientStreaming || md.serverStreaming then
        Except.ok (⟨{ success := false, error := streamingUnsupportedMsg }, sid⟩, m1)
      else
        let requestJSON := if req.requestJson ≠ "" then req.requestJson else "\x7b\x7d"
        let timeoutSeconds : Int := if req.timeoutSeconds ≤ 0 then 30 else req.timeoutSeconds
        let ireq : Invoker.InvokeRequest :=
          { endpoint := req.endpoint, serviceName := req.service,
            methodName := req.method, requestJSON := requestJSON,
            useTLS := req.useTls, serverName := req.serverName,
            timeoutSeconds := timeoutSeconds, metadata := req.metadata,
            methodDesc := some md, transport := req.transport }
        match Invoker.invokeUnary st.invoker ireq now co gco with
        | (Except.error e, inv') =>
            let st' := { st with invoker := inv' }
            let m2 := { m1 with sessions := CMap.insert sid st' m1.sessions }
            Except.ok
              (⟨{ success := false, error := "invocation error: " ++ e }, sid⟩, m2)
        | (Except.ok ir, inv') =>
            let st' := { st with invoker := inv' }
            let m2 := { m1 with sessions := CMap.insert sid st' m1.sessions }
            let out : InvokeGRPCResponse :=
              { success := ir.success, responseJson := ir.responseJSON,
                error := ir.error, metadata := ir.metadata,
                statusCode := ir.statusCode, statusMessage := ir.statusMessage }
            Except.ok (⟨out, sid⟩, m2)

end Server

namespace Invoker

/-- One micro-step of getConnection acting on the shared pool map, for
the interleaving analysis of concurrent calls.  The Go Invoker holds no
lock, so between any two of these steps another call may run: step 0 is
cleanupStaleConnections, step 1 the hit check (bumping lastUsed and
finishing, or deleting a dead entry), step 2 the capacity check with LRU
eviction, step 3 the dial-and-store.  Program counter 4 means the call
has returned. -/
def gcStep (maxC : Int) (ttl : Nat) (now : Nat) (key : String)
    (pool : List (String × ConnMeta)) (pc : Nat) :
    List (String × ConnMeta) × Nat :=
  match pc with
  | 0 => (poolCleanup ttl now pool, 1)
  | 1 =>
    match CMap.lookup key pool with
    | some meta =>
        if meta.state ≠ ConnState.shutdown ∧ now - meta.createdAt < ttl then
          (CMap.insert key { meta with lastUsed := now } pool, 4)
        else
          (CMap.erase key pool, 2)
    | none => (pool, 2)
  | 2 => (if (pool.length : Int) ≥ maxC then evictOldestPool pool else pool, 3)
  | 3 => (CMap.insert key ⟨now, now, ConnState.ready⟩ pool, 4)
  | _ => (pool, pc)

/-- Run two unsynchronised getConnection calls with keys k1 and k2 under
a schedule: true steps the first call, false the second. -/
def runTwo (maxC : Int) (ttl : Nat) (now : Nat) (k1 k2 : String) :
    List Bool → List (String × ConnMeta) × Nat × Nat →
      List (String × ConnMeta) × Nat × Nat
  | [], s => s
  | b :: rest, (pool, pc1, pc2) =>
    if b then
      let r := gcStep maxC ttl now k1 pool pc1
      runTwo maxC ttl now k1 k2 rest (r.1, r.2, pc2)
    else
      let r := gcStep maxC ttl now k2 pool pc2
      runTwo maxC ttl now k1 k2 rest (r.1, pc1, r.2)

end Invoker

namespace SchemaSpec

open Proto

/-- The JSON-schema shape stated by the specification: a title, a
property list of field name, coarse JSON type and optional reference,
and a required set. -/
structure SchemaShape where
  title : String
  properties : List (String × String × Option String)
  required : List String

/-- The coarse JSON type table as the specification words it:
double and float to number, every integer kind to integer, bool to
boolean, string, bytes and enum to string, message to object.  The
specification assigns no type to the legacy group kind; it is mapped to
the empty string so that agreement with the code is claimed only for
the kinds the specification covers. -/
def claimJSONType : FieldType → String
  | .tDouble => "number"
  | .tFloat => "number"
  | .tInt32 => "integer"
  | .tInt64 => "integer"
  | .tUint32 => "integer"
  | .tUint64 => "integer"
  | .tSint32 => "integer"
  | .tSint64 => "integer"
  | .tFixed32 => "integer"
  | .tFixed64 => "integer"
  | .tSfixed32 => "integer"
  | .tSfixed64 => "integer"
  | .tBool => "boolean"
  | .tString => "string"
  | .tBytes => "string"
  | .tMessage => "object"
  | .tEnum => "string"
  | .tGroup => ""

/-- The property the specification assigns to one field: its name, the
coarse type, and for message fields a reference naming the referenced
message by fully-qualified name under the definitions pointer. -/
def claimProperty (f : FieldDescriptorProto) : String × String × Option String :=
  (f.name, claimJSONType f.type,
    if f.type = FieldType.tMessage then some ("#/definitions/" ++ f.typeName) else none)

/-- Rendering of one property of the shape, in the layout the code
emits. -/
def renderProperty (p : String × String × Option String) : String :=
  "\n    \"" ++ p.1 ++ "\": \x7b\n      \"type\": \"" ++ p.2.1 ++ "\"" ++
    (match p.2.2 with
      | some r => ",\n      \"$ref\": \"" ++ r ++ "\""
      | none => "") ++ "\n    \x7d"

/-- Rendering of the property list, comma-separated. -/
def renderProperties : List (String × String × Option String) → Bool → String
  | [], _ => ""
  | p :: rest, isFirst =>
      (if isFirst then "" else ",") ++ renderProperty p ++ renderProperties rest false

/-- Rendering of the whole shape.  A non-empty required set would
materialise as a required member; the empty set renders nothing, so
equality with the code string certifies that the schema has an empty
required set. -/
def renderSchema (s : SchemaShape) : String :=
  "\x7b\n  \"type\": \"object\",\n  \"title\": \"" ++ s.title ++
    "\",\n  \"properties\": \x7b" ++ renderProperties s.properties true ++ "\n  \x7d" ++
    (if s.required.isEmpty then ""
      else ",\n  \"required\": [" ++
        String.intercalate ", " (s.required.map (fun x => "\"" ++ x ++ "\"")) ++ "]") ++
    "\n\x7d"

/-- The schema shape the specification predicts for a message. -/
def claimSchema (msg : MessageD) : SchemaShape :=
  { title := msg.name, properties := msg.fields.map claimProperty, required := [] }

theorem ref_literal_merge (s t : String) :
    ",\n      \"$ref\": \"" ++ ("#/definitions/" ++ (s ++ t)) =
      ",\n      \"$ref\": \"#/definitions/" ++ (s ++ t) := by
  rw [← String.append_assoc]
  congr 1

theorem fragment_eq_renderProperty (f : FieldDescriptorProto) (h : f.type ≠ FieldType.tGroup) :
    Registry.schemaFieldFragment f = renderProperty (claimProperty f) := by
  cases htype : f.type <;>
    simp [Registry.schemaFieldFragment, renderProperty, claimProperty, htype,
      Registry.getJSONType, claimJSONType, FieldDescriptorProto.hasMessageType,
      String.append_assoc, ref_literal_merge] at h ⊢

theorem loop_eq_renderProperties (fs : List FieldDescriptorProto) (b : Bool)
    (h : ∀ f ∈ fs, f.type ≠ FieldType.tGroup) :
    Registry.schemaFieldsLoop fs b = renderProperties (fs.map claimProperty) b := by
  induction fs generalizing b with
  | nil => simp [Registry.schemaFieldsLoop, renderProperties]
  | cons f rest ih =>
      have hf := h f (List.mem_cons_self f rest)
      have hrest : ∀ g ∈ rest, g.type ≠ FieldType.tGroup :=
        fun g hg => h g (List.mem_cons_of_mem f hg)
      simp only [Registry.schemaFieldsLoop, renderProperties, List.map_cons,
        fragment_eq_renderProperty f hf, ih false hrest]

end SchemaSpec

namespace CMap

theorem lookup_eq_none_iff_not_mem_keys (k : String) (m : List (String × α)) :
    lookup k m = none ↔ k ∉ keys m := by
  induction m with
  | nil => simp [lookup, keys]
  | cons hd tl ih =>
      obtain ⟨k', v'⟩ := hd
      by_cases h : k' = k
      · subst h
        simp [lookup, keys]
      · have h' : ¬ (k = k') := fun hx => h hx.symm
        simp [lookup, keys, h, h', ih]

theorem mem_of_mem_erase (k : String) (m : List (String × α)) (e : String × α)
    (h : e ∈ erase k m) : e ∈ m := by
  induction m with
  | nil => simp [erase] at h
  | cons hd tl ih =>
      obtain ⟨k', v'⟩ := hd
      by_cases h2 : k' = k
      · simp [erase, h2] at h
        exact List.mem_cons_of_mem _ h
      · simp [erase, h2] at h
        rcases h with h | h
        · exact h ▸ List.mem_cons_self _ _
        · exact List.mem_cons_of_mem _ (ih h)

theorem keys_erase_sublist (k : String) (m : List (String × α)) :
    (keys (erase k m)).Sublist (keys m) := by
  induction m with
  | nil => simp [erase, keys]
  | cons hd tl ih =>
      obtain ⟨k', v'⟩ := hd
      by_cases h : k' = k
      · simp only [erase, h, if_true, keys, List.map_cons]
        exact (List.sublist_cons_self _ _)
      · simp only [erase, h, if_false, keys, List.map_cons]
        exact ih.cons₂ _

theorem keys_nodup_erase (k : String) (m : List (String × α))
    (h : (keys m).Nodup) : (keys (erase k m)).Nodup :=
  h.sublist (keys_erase_sublist k m)

theorem lookup_erase_self (k : String) (m : List (String × α))
    (hnodup : (keys m).Nodup) : lookup k (erase k m) = none := by
  induction m with
  | nil => simp [erase]
  | cons hd tl ih =>
      obtain ⟨k', v'⟩ := hd
      simp only [keys, List.map_cons, List.nodup_cons] at hnodup
      by_cases h2 : k' = k
      · subst h2
        simp only [erase, if_true]
        exact (lookup_eq_none_iff_not_mem_keys _ _).mpr hnodup.1
      · simp only [erase, h2, if_false, lookup, if_neg h2]
        exact ih hnodup.2

theorem lookup_none_erase (k k0 : String) (m : List (String × α))
    (h : lookup k m = none) : lookup k (erase k0 m) = none := by
  rw [lookup_eq_none_iff_not_mem_keys] at h ⊢
  intro hmem
  exact h (List.Sublist.mem hmem (keys_erase_sublist k0 m))

theorem mem_insert_of_ne (k : String) (v : α) (m : List (String × α)) (e : String × α)
    (h : e ∈ insert k v m) (hne : e.1 ≠ k) : e ∈ m := by
  induction m with
  | nil =>
      simp [insert] at h
      rw [h] at hne
      simp at hne
  | cons hd tl ih =>
      obtain ⟨k', v'⟩ := hd
      by_cases h2 : k' = k
      · simp only [insert, h2, if_true] at h
        rcases List.mem_cons.mp h with h3 | h3
        · rw [h3] at hne; simp at hne
        · exact List.mem_cons_of_mem _ h3
      · simp only [insert, h2, if_false] at h
        rcases List.mem_cons.mp h with h3 | h3
        · exact h3 ▸ List.mem_cons_self _ _
        · exact List.mem_cons_of_mem _ (ih h3)

theorem keys_filter_sublist (p : String × α → Bool) (m : List (String × α)) :
    (keys (m.filter p)).Sublist (keys m) :=
  List.Sublist.map Prod.fst (List.filter_sublist m)

theorem insertAll_cons (p : String × α) (ps : List (String × α)) (m : List (String × α)) :
    insertAll (p :: ps) m = insertAll ps (insert p.1 p.2 m) := rfl

theorem lookup_insertAll_not_mem (k : String) (ps m : List (String × α))
    (h : k ∉ ps.map Prod.fst) : lookup k (insertAll ps m) = lookup k m := by
  induction ps generalizing m with
  | nil => rfl
  | cons p ps ih =>
      simp only [List.map_cons, List.mem_cons] at h
      push_neg at h
      rw [insertAll_cons, ih (insert p.1 p.2 m) h.2, lookup_insert_ne]
      exact fun hx => h.1 hx.symm

theorem lookup_insertAll_mem (ps : List (String × α)) (m : List (String × α))
    (hnodup : (ps.map Prod.fst).Nodup) (k : String) (v : α) (hmem : (k, v) ∈ ps) :
    lookup k (insertAll ps m) = some v := by
  induction ps generalizing m with
  | nil => simp at hmem
  | cons p ps ih =>
      simp only [List.map_cons, List.nodup_cons] at hnodup
      rcases List.mem_cons.mp hmem with h2 | h2
      · have hk : k = p.1 := congrArg Prod.fst h2
        have hv : v = p.2 := congrArg Prod.snd h2
        have hnot : k ∉ ps.map Prod.fst := hk ▸ hnodup.1
        rw [insertAll_cons, lookup_insertAll_not_mem k ps _ hnot, hk, hv]
        exact lookup_insert_self p.1 p.2 m
      · rw [insertAll_cons]
        exact ih (insert p.1 p.2 m) hnodup.2 h2

theorem insertAll_invariant (ps : List (String × α)) (m : List (String × α))
    (hall : ∀ p ∈ ps, lookup p.1 m = some p.2) : insertAll ps m = m := by
  induction ps with
  | nil => rfl
  | cons p ps ih =>
      rw [insertAll_cons, insert_eq_of_lookup p.1 p.2 m (hall p (List.mem_cons_self p ps))]
      exact ih (fun q hq => hall q (List.mem_cons_of_mem p hq))

theorem insertAll_idem (ps m : List (String × α)) (hnodup : (ps.map Prod.fst).Nodup) :
    insertAll ps (insertAll ps m) = insertAll ps m :=
  insertAll_invariant ps (insertAll ps m)
    (fun p hp => lookup_insertAll_mem ps m hnodup p.1 p.2 hp)

theorem length_insertAll_fresh (ps : List (String × α)) (m : List (String × α))
    (hnodup : (ps.map Prod.fst).Nodup)
    (hdisj : ∀ k ∈ ps.map Prod.fst, lookup k m = none) :
    (insertAll ps m).length = m.length + ps.length := by
  induction ps generalizing m with
  | nil => rfl
  | cons p ps ih =>
      simp only [List.map_cons, List.nodup_cons] at hnodup
      have hp : lookup p.1 m = none :=
        hdisj p.1 (by simp)
      have hlen : (insert p.1 p.2 m).length = m.length + 1 := by
        rw [length_insert, hp]
        simp
      rw [insertAll_cons, ih (insert p.1 p.2 m) hnodup.2, hlen]
      · simp only [List.length_cons]
        omega
      · intro k hk
        have hne : p.1 ≠ k := fun hx => hnodup.1 (hx ▸ hk)
        rw [lookup_insert_ne k p.1 p.2 m hne]
        exact hdisj k (by simp [hk])

end CMap

namespace CMap

theorem insertAll_append (ps qs m : List (String × α)) :
    insertAll (ps ++ qs) m = insertAll qs (insertAll ps m) := by
  simp [insertAll, List.foldl_append]

end CMap

namespace Registry

open Proto

theorem registerAll_files (fds : List FileD) (r : State) :
    (fds.foldl registerFile r).files =
      CMap.insertAll (fds.map (fun f => (f.name, f))) r.files := by
  induction fds generalizing r with
  | nil => rfl
  | cons f fds ih =>
      rw [List.foldl_cons, ih, List.map_cons, CMap.insertAll_cons]
      rfl

theorem registerAll_services (fds : List FileD) (r : State) :
    (fds.foldl registerFile r).services =
      CMap.insertAll (fds.flatMap svcPairs) r.services := by
  induction fds generalizing r with
  | nil => rfl
  | cons f fds ih =>
      rw [List.foldl_cons, ih, List.flatMap_cons, CMap.insertAll_append]
      rfl

theorem registerAll_messages (fds : List FileD) (r : State) :
    (fds.foldl registerFile r).messages =
      CMap.insertAll (fds.flatMap msgPairs) r.messages := by
  induction fds generalizing r with
  | nil => rfl
  | cons f fds ih =>
      rw [List.foldl_cons, ih, List.flatMap_cons, CMap.insertAll_append]
      rfl

theorem flatMap_sublist {α β : Type} (l : List α) (f g : α → List β)
    (h : ∀ a ∈ l, (f a).Sublist (g a)) : (l.flatMap f).Sublist (l.flatMap g) := by
  induction l with
  | nil => simp
  | cons a l ih =>
      rw [List.flatMap_cons, List.flatMap_cons]
      exact List.Sublist.append (h a (List.mem_cons_self a l))
        (ih (fun b hb => h b (List.mem_cons_of_mem a hb)))

theorem file_keys_nodup_of_newFilesOk (fds : List FileD) (h : newFilesOk fds = true) :
    ((fds.map (fun f => (f.name, f))).map Prod.fst).Nodup := by
  have h1 : (fds.map FileD.name).Nodup := by
    simp only [newFilesOk, Bool.and_eq_true, decide_eq_true_eq] at h
    exact h.1
  simpa [List.map_map, Function.comp] using h1

theorem symbols_nodup_of_newFilesOk (fds : List FileD) (h : newFilesOk fds = true) :
    (fds.flatMap symbolsOfFile).Nodup := by
  simp only [newFilesOk, Bool.and_eq_true, decide_eq_true_eq] at h
  exact h.2

theorem svc_keys_sublist (f : FileD) :
    ((svcPairs f).map Prod.fst).Sublist (symbolsOfFile f) := by
  unfold symbolsOfFile
  exact List.Sublist.trans (List.sublist_append_left _ _) (List.sublist_append_left _ _)

theorem msg_keys_sublist (f : FileD) :
    ((msgPairs f).map Prod.fst).Sublist (symbolsOfFile f) := by
  unfold symbolsOfFile
  exact List.Sublist.trans (List.sublist_append_right _ _) (List.sublist_append_left _ _)

theorem svc_keys_nodup_of_newFilesOk (fds : List FileD) (h : newFilesOk fds = true) :
    ((fds.flatMap svcPairs).map Prod.fst).Nodup := by
  have hs : ((fds.flatMap svcPairs).map Prod.fst).Sublist (fds.flatMap symbolsOfFile) := by
    rw [List.map_flatMap]
    exact flatMap_sublist fds _ _ (fun f _ => svc_keys_sublist f)
  exact (symbols_nodup_of_newFilesOk fds h).sublist hs

theorem msg_keys_nodup_of_newFilesOk (fds : List FileD) (h : newFilesOk fds = true) :
    ((fds.flatMap msgPairs).map Prod.fst).Nodup := by
  have hs : ((fds.flatMap msgPairs).map Prod.fst).Sublist (fds.flatMap symbolsOfFile) := by
    rw [List.map_flatMap]
    exact flatMap_sublist fds _ _ (fun f _ => msg_keys_sublist f)
  exact (symbols_nodup_of_newFilesOk fds h).sublist hs

end Registry

namespace Session

theorem hexByte_length (b : Nat) : (hexByte b).length = 2 := rfl

theorem hexEncode_length (bs : List Nat) : (hexEncode bs).length = 2 * bs.length := by
  induction bs with
  | nil => rfl
  | cons b rest ih =>
      rw [hexEncode, String.length_append, hexByte_length, ih, List.length_cons]
      omega

theorem hexEncode_ne_empty (bs : List Nat) (h : bs ≠ []) : hexEncode bs ≠ "" := by
  intro hx
  have hlen := congrArg String.length hx
  rw [hexEncode_length] at hlen
  simp at hlen
  exact h hlen

theorem getD_hextable_mem (n : Nat) : hextable.getD n '0' ∈ hextable := by
  by_cases h : n < 16
  · interval_cases n <;> decide
  · have hlen : hextable.length ≤ n := by
      have h16 : hextable.length = 16 := rfl
      omega
    rw [List.getD_eq_getElem?_getD, List.getElem?_eq_none hlen]
    decide

theorem hexEncode_chars (bs : List Nat) :
    ∀ c ∈ (hexEncode bs).data, c ∈ hextable := by
  induction bs with
  | nil => intro c hc; simp [hexEncode] at hc
  | cons b rest ih =>
      intro c hc
      rw [hexEncode, String.data_append] at hc
      rcases List.mem_append.mp hc with h | h
      · rcases List.mem_cons.mp h with h1 | h1
        · exact h1 ▸ getD_hextable_mem _
        · rcases List.mem_cons.mp h1 with h2 | h2
          · exact h2 ▸ getD_hextable_mem _
          · simp at h2
      · exact ih c h

end Session

theorem close_literal_merge : ("\n  \x7d" : String) ++ "\n\x7d" = "\n  \x7d\n\x7d" := rfl

/-- C8: for every message descriptor (with no legacy group-kind field,
a kind the specification's table does not cover), the JSON schema the
registry generates is exactly the rendering of the shape the
specification describes: title equal to the simple message name, one
property per field whose type follows the double/float to number, any
integer kind to integer, bool to boolean, string/bytes/enum to string,
message to object table, message fields carrying a $ref naming the
referenced message's fully-qualified name under the definitions pointer,
and an empty required set (a non-empty one would render extra text). -/
theorem c8_schema_matches_spec (msg : Proto.MessageD)
    (h : ∀ f ∈ msg.fields, f.type ≠ Proto.FieldType.tGroup) :
    Registry.generateJSONSchema msg =
      SchemaSpec.renderSchema (SchemaSpec.claimSchema msg) := by
  cases msg with
  | mk n fs ns =>
      have hfs : ∀ f ∈ fs, f.type ≠ Proto.FieldType.tGroup := by
        simpa [Proto.MessageD.fields] using h
      have hloop := SchemaSpec.loop_eq_renderProperties fs true hfs
      simp [Registry.generateJSONSchema, SchemaSpec.renderSchema, SchemaSpec.claimSchema,
        Proto.MessageD.name, Proto.MessageD.fields, hloop, String.append_assoc,
        close_literal_merge]

/-- The concrete message of the C8 witness: one field of each kind family
the specification covers. -/
def c8msg : Proto.MessageD :=
  Proto.MessageD.mk "TestRequest"
    [⟨"label", Proto.FieldType.tString, ""⟩,
     ⟨"count", Proto.FieldType.tInt32, ""⟩,
     ⟨"weight", Proto.FieldType.tDouble, ""⟩,
     ⟨"flag", Proto.FieldType.tBool, ""⟩,
     ⟨"payload", Proto.FieldType.tMessage, "test.v1.Inner"⟩,
     ⟨"blob", Proto.FieldType.tBytes, ""⟩,
     ⟨"kind", Proto.FieldType.tEnum, ""⟩] []

/-- Witness for C8 at the concrete message c8msg. -/
theorem c8_schema_matches_spec_witness :
    (∀ f ∈ c8msg.fields, f.type ≠ Proto.FieldType.tGroup) ∧
    Registry.generateJSONSchema c8msg =
      SchemaSpec.renderSchema (SchemaSpec.claimSchema c8msg) :=
  ⟨by decide, c8_schema_matches_spec c8msg (by decide)⟩

/-- C10: the spec claims the connection pool is protected by one shared
lock, so two concurrent InvokeUnary calls never race on the pool map.
The Go Invoker struct carries no lock (see InvokerState): running the
unsynchronised micro-steps of two getConnection calls on a shared pool
of two fresh entries with capacity 2, under the interleaving where both
calls pass the capacity check before either stores its dial, leaves 3
entries — more than max_connections — while any serialised order leaves
2.  This exhibits the data race the missing lock permits (in Go,
concurrent unsynchronised map writes are additionally a fatal runtime
error). -/
theorem c10_unsynchronised_pool_races :
    (Invoker.runTwo 2 300 100 "c:false:" "d:false:"
        [true, true, true, false, false, false, true, false]
        ([("a:false:", ⟨100, 100, Invoker.ConnState.ready⟩),
          ("b:false:", ⟨100, 100, Invoker.ConnState.ready⟩)], 0, 0)).1.length = 3 ∧
    (Invoker.runTwo 2 300 100 "c:false:" "d:false:"
        [true, true, true, true, false, false, false, false]
        ([("a:false:", ⟨100, 100, Invoker.ConnState.ready⟩),
          ("b:false:", ⟨100, 100, Invoker.ConnState.ready⟩)], 0, 0)).1.length = 2 := by
  constructor <;> rfl

/-- Counterexample to C2 as stated: the request with gRPC transport, nil
method descriptor and empty endpoint satisfies the claim's premise, yet
InvokeUnary answers with a Go error (Except.error), not a
Success = false response — InvokeUnary never calls ValidateRequest. -/
theorem c2_counterexample :
    (Invoker.invokeUnary Invoker.new
        { endpoint := "", serviceName := "", methodName := "", requestJSON := "",
          methodDesc := none, transport := Invoker.TRANSPORT_GRPC }
        0
        { doResult := Except.error "unused", parseConnectError := fun _ => none }
        { invokeResult := Except.error (⟨"unused", none⟩, [], []) }).1 =
      Except.error "method descriptor is required for gRPC transport" := by
  rfl

/-- C2 (amended): InvokeUnary performs no pre-transport validation; the
standalone ValidateRequest function is the one that rejects — with a Go
error — exactly the requests in which endpoint, service name, method
name, method descriptor or request bytes are empty or whose request
bytes fail the JSON well-formedness check of the JSON library (passed
here as the predicate the library implements). -/
theorem c2_validateRequest_characterisation (jsonOk : String → Bool)
    (req : Invoker.InvokeRequest) :
    (Invoker.validateRequest jsonOk req).isSome = true ↔
      (req.endpoint = "" ∨ req.serviceName = "" ∨ req.methodName = "" ∨
        req.methodDesc = none ∨ req.requestJSON = "" ∨
        jsonOk req.requestJSON = false) := by
  unfold Invoker.validateRequest
  split_ifs with h1 h2 h3 h4 h5 h6 <;>
    simp_all [Option.isNone_iff_eq_none]

/-- C3: an InvokeGRPC RPC with non-empty endpoint, service and method
whose resolved method descriptor has a streaming flag set is answered
with a normal response (Except.ok, not a transport-level error) whose
success is false and whose error message contains the word streaming. -/
theorem c3_streaming_rejected (m : Session.Manager) (hdr : String) (rb : List Nat)
    (now : Nat) (req : Server.InvokeGRPCRequest) (co : Invoker.ConnectOracle)
    (gco : Invoker.GrpcOracle) (md : Proto.MethodDescriptor)
    (he : ¬ (req.endpoint = "")) (hs : ¬ (req.service = "")) (hm : ¬ (req.method = ""))
    (hlookup : Registry.getMethodDescriptor
        (Session.getOrCreate m hdr rb now).1.registry req.service req.method =
        Except.ok md)
    (hstream : (md.clientStreaming || md.serverStreaming) = true) :
    Server.invokeGRPCHandler m hdr rb now req co gco =
      Except.ok
        (⟨{ success := false, error := Server.streamingUnsupportedMsg },
            (Session.getOrCreate m hdr rb now).2.1⟩,
          (Session.getOrCreate m hdr rb now).2.2) ∧
    "streaming".data <:+: Server.streamingUnsupportedMsg.data := by
  refine ⟨?_, by decide⟩
  simp [Server.invokeGRPCHandler, he, hs, hm, hlookup, hstream]

/-- The registry of the C3 and C7 witnesses is reached through concrete
façade states; this service carries one server-streaming method. -/
def c3svc : Proto.ServiceD :=
  { name := "TestService",
    methods := [{ name := "StreamMethod", inputType := "test.v1.In",
                  outputType := "test.v1.Out", serverStreaming := true }] }

/-- A session manager holding one session whose registry indexes the
streaming service. -/
def c3mgr : Session.Manager :=
  { sessions :=
      [("sess1",
        { registry :=
            { files := [],
              services :=
                [("test.v1.TestService", ⟨"test.v1.TestService", "test.v1", c3svc⟩)],
              messages := [] },
          invoker := Invoker.new, createdAt := 0, lastUsed := 0 })],
    ttl := 3600 }

/-- The method descriptor the C3 witness resolves. -/
def c3md : Proto.MethodDescriptor :=
  { name := "StreamMethod", inputType := "test.v1.In", outputType := "test.v1.Out",
    serverStreaming := true }

/-- Witness for C3 at a concrete manager, session and request. -/
theorem c3_streaming_rejected_witness :
    (¬ (("localhost:50051" : String) = "") ∧ ¬ (("test.v1.TestService" : String) = "") ∧
      ¬ (("StreamMethod" : String) = "") ∧
      Registry.getMethodDescriptor
        (Session.getOrCreate c3mgr "sess1" [] 1).1.registry
        "test.v1.TestService" "StreamMethod" = Except.ok c3md ∧
      (c3md.clientStreaming || c3md.serverStreaming) = true) ∧
    (Server.invokeGRPCHandler c3mgr "sess1" [] 1
        { endpoint := "localhost:50051", service := "test.v1.TestService",
          method := "StreamMethod" }
        { doResult := Except.error "unused", parseConnectError := fun _ => none }
        { invokeResult := Except.error (⟨"unused", none⟩, [], []) } =
      Except.ok
        (⟨{ success := false, error := Server.streamingUnsupportedMsg },
            (Session.getOrCreate c3mgr "sess1" [] 1).2.1⟩,
          (Session.getOrCreate c3mgr "sess1" [] 1).2.2) ∧
      "streaming".data <:+: Server.streamingUnsupportedMsg.data) :=
  ⟨⟨by decide, by decide, by decide, by rfl, by rfl⟩,
    c3_streaming_rejected c3mgr "sess1" [] 1
      { endpoint := "localhost:50051", service := "test.v1.TestService",
        method := "StreamMethod" }
      { doResult := Except.error "unused", parseConnectError := fun _ => none }
      { invokeResult := Except.error (⟨"unused", none⟩, [], []) }
      c3md (by decide) (by decide) (by decide) (by rfl) (by rfl)⟩

/-- C9: for every request whose transport is not GRPC, InvokeUnary routes
to invokeConnect and always returns a response with a nil Go error
(Except.ok): request-construction failures, connection failures,
body-read failures and non-200 statuses are all encoded in the response,
so success can only be true when the request was built, the call
succeeded, the body was read and the status was 200. -/
theorem c9_nonGrpc_no_go_error (inv : Invoker.InvokerState) (req : Invoker.InvokeRequest)
    (now : Nat) (co : Invoker.ConnectOracle) (gco : Invoker.GrpcOracle)
    (h : ¬ (req.transport = Invoker.TRANSPORT_GRPC)) :
    ∃ resp, (Invoker.invokeUnary inv req now co gco).1 = Except.ok resp ∧
      (resp.success = true →
        co.newRequestErr = none ∧
        ∃ hr body, co.doResult = Except.ok hr ∧ hr.bodyResult = Except.ok body ∧
          hr.statusCode = 200) := by
  have hroute : Invoker.invokeUnary inv req now co gco = (Invoker.invokeConnect req co, inv) := by
    unfold Invoker.invokeUnary
    rw [if_neg h]
  rw [hroute]
  obtain ⟨ne, dr, pc⟩ := co
  cases ne with
  | some e =>
      refine ⟨{ success := false, error := "failed to create request: " ++ e }, ?_, ?_⟩
      · simp [Invoker.invokeConnect]
      · intro hs
        simp at hs
  | none =>
    cases dr with
    | error e =>
        refine ⟨{ success := false, error := "request failed: " ++ e }, ?_, ?_⟩
        · simp [Invoker.invokeConnect]
        · intro hs
          simp at hs
    | ok hr =>
      obtain ⟨sc, stline, hdrs, br⟩ := hr
      cases br with
      | error e =>
          refine ⟨{ success := false, error := "failed to read response: " ++ e }, ?_, ?_⟩
          · simp [Invoker.invokeConnect]
          · intro hs
            simp at hs
      | ok body =>
        by_cases hsc : sc = 200
        · subst hsc
          refine ⟨{ success := true, responseJSON := body, statusCode := 0,
                      statusMessage := "OK",
                      metadata := Invoker.headerMetadata hdrs }, ?_, ?_⟩
          · simp [Invoker.invokeConnect]
          · intro hs
            exact ⟨rfl, ⟨200, stline, hdrs, Except.ok body⟩, body, rfl, rfl, rfl⟩
        · cases hp : pc body with
          | none =>
              refine ⟨{ success := false,
                          error := "HTTP " ++ toString sc ++ ": " ++ body,
                          statusCode := (sc : Int), statusMessage := stline,
                          metadata := Invoker.headerMetadata hdrs }, ?_, ?_⟩
              · simp [Invoker.invokeConnect, hsc, hp]
              · intro hs
                simp at hs
          | some cm =>
              obtain ⟨code, msg⟩ := cm
              by_cases hm : msg = ""
              · subst hm
                refine ⟨{ success := false,
                            error := "HTTP " ++ toString sc ++ ": " ++ body,
                            statusCode := (sc : Int), statusMessage := stline,
                            metadata := Invoker.headerMetadata hdrs }, ?_, ?_⟩
                · simp [Invoker.invokeConnect, hsc, hp]
                · intro hs
                  simp at hs
              · refine ⟨{ success := false, error := msg,
                            statusCode := (sc : Int), statusMessage := code,
                            metadata := Invoker.headerMetadata hdrs }, ?_, ?_⟩
                · simp [Invoker.invokeConnect, hsc, hp, hm]
                · intro hs
                  simp at hs

/-- The Connect request of the C9 witness. -/
def c9req : Invoker.InvokeRequest :=
  { endpoint := "localhost:50097", serviceName := "connectrpc.eliza.v1.ElizaService",
    methodName := "Say", requestJSON := "\x7b\"sentence\":\"hi\"\x7d",
    methodDesc := none, transport := 0 }

/-- The HTTP oracle of the C9 witness: a healthy 200 exchange. -/
def c9co : Invoker.ConnectOracle :=
  { doResult := Except.ok
      { statusCode := 200, status := "200 OK", headers := [],
        bodyResult := Except.ok "\x7b\"sentence\":\"Hello!\"\x7d" },
    parseConnectError := fun _ => none }

/-- The (unused) gRPC oracle of the C9 witness. -/
def c9gco : Invoker.GrpcOracle :=
  { invokeResult := Except.error (⟨"unused", none⟩, [], []) }

/-- Witness for C9 at a concrete Connect request. -/
theorem c9_nonGrpc_no_go_error_witness :
    (¬ (c9req.transport = Invoker.TRANSPORT_GRPC)) ∧
    (∃ resp, (Invoker.invokeUnary Invoker.new c9req 0 c9co c9gco).1 = Except.ok resp ∧
      (resp.success = true →
        c9co.newRequestErr = none ∧
        ∃ hr body, c9co.doResult = Except.ok hr ∧ hr.bodyResult = Except.ok body ∧
          hr.statusCode = 200)) :=
  ⟨by decide, c9_nonGrpc_no_go_error Invoker.new c9req 0 c9co c9gco (by decide)⟩

/-- C6: for the Connect transport, a non-200 upstream status yields
success = false with status_code equal to the HTTP status; if the body
unmarshals as a code and message object with non-empty message, the
error is that message and status_message that code; otherwise the error
falls back to the HTTP status and raw body. -/
theorem c6_connect_non200_mapping (req : Invoker.InvokeRequest) (co : Invoker.ConnectOracle)
    (hr : Invoker.HttpResponse) (body : String)
    (h1 : co.newRequestErr = none) (h2 : co.doResult = Except.ok hr)
    (h3 : hr.bodyResult = Except.ok body) (h4 : ¬ (hr.statusCode = 200)) :
    ∃ resp, Invoker.invokeConnect req co = Except.ok resp ∧
      resp.success = false ∧ resp.statusCode = (hr.statusCode : Int) ∧
      (∀ code msg, co.parseConnectError body = some (code, msg) → ¬ (msg = "") →
        resp.error = msg ∧ resp.statusMessage = code) ∧
      ((co.parseConnectError body = none ∨
          (∃ code, co.parseConnectError body = some (code, ""))) →
        resp.error = "HTTP " ++ toString hr.statusCode ++ ": " ++ body) := by
  cases hp : co.parseConnectError body with
  | none =>
      refine ⟨{ success := false,
                  error := "HTTP " ++ toString hr.statusCode ++ ": " ++ body,
                  statusCode := (hr.statusCode : Int), statusMessage := hr.status,
                  metadata := Invoker.headerMetadata hr.headers }, ?_, rfl, rfl, ?_, ?_⟩
      · simp [Invoker.invokeConnect, h1, h2, h3, h4, hp]
      · intro code msg hx
        cases hx
      · intro _
        rfl
  | some cm =>
      obtain ⟨code, msg⟩ := cm
      by_cases hm : msg = ""
      · subst hm
        refine ⟨{ success := false,
                    error := "HTTP " ++ toString hr.statusCode ++ ": " ++ body,
                    statusCode := (hr.statusCode : Int), statusMessage := hr.status,
                    metadata := Invoker.headerMetadata hr.headers }, ?_, rfl, rfl, ?_, ?_⟩
        · simp [Invoker.invokeConnect, h1, h2, h3, h4, hp]
        · intro code' msg' hx hne
          injection hx with hx2
          injection hx2 with hc hm2
          exact absurd hm2.symm hne
        · intro _
          rfl
      · refine ⟨{ success := false, error := msg,
                    statusCode := (hr.statusCode : Int), statusMessage := code,
                    metadata := Invoker.headerMetadata hr.headers }, ?_, rfl, rfl, ?_, ?_⟩
        · simp [Invoker.invokeConnect, h1, h2, h3, h4, hp, hm]
        · intro code' msg' hx hne
          injection hx with hx2
          injection hx2 with hc hm2
          exact ⟨hm2.symm ▸ rfl, hc.symm ▸ rfl⟩
        · intro hcase
          rcases hcase with hnone | ⟨code2, hsome⟩
          · cases hnone
          · injection hsome with hx2
            injection hx2 with hc hm2
            exact absurd hm2 hm

/-- The upstream HTTP response of the C6 witness: a 500 whose body
parses as a Connect error with non-empty message. -/
def c6hr : Invoker.HttpResponse :=
  { statusCode := 500, status := "500 Internal Server Error", headers := [],
    bodyResult := Except.ok "errbody" }

/-- The oracle of the C6 witness. -/
def c6co : Invoker.ConnectOracle :=
  { doResult := Except.ok c6hr,
    parseConnectError := fun _ => some ("internal", "boom") }

/-- The request of the C6 witness. -/
def c6req : Invoker.InvokeRequest :=
  { endpoint := "localhost:50097", serviceName := "test.v1.S", methodName := "M",
    requestJSON := "\x7b\x7d", methodDesc := none }

/-- Witness for C6 at the concrete 500 exchange. -/
theorem c6_connect_non200_mapping_witness :
    (c6co.newRequestErr = none ∧ c6co.doResult = Except.ok c6hr ∧
      c6hr.bodyResult = Except.ok "errbody" ∧ ¬ (c6hr.statusCode = 200)) ∧
    (∃ resp, Invoker.invokeConnect c6req c6co = Except.ok resp ∧
      resp.success = false ∧ resp.statusCode = (c6hr.statusCode : Int) ∧
      (∀ code msg, c6co.parseConnectError "errbody" = some (code, msg) → ¬ (msg = "") →
        resp.error = msg ∧ resp.statusMessage = code) ∧
      ((c6co.parseConnectError "errbody" = none ∨
          (∃ code, c6co.parseConnectError "errbody" = some (code, ""))) →
        resp.error = "HTTP " ++ toString c6hr.statusCode ++ ": " ++ "errbody")) :=
  ⟨⟨rfl, rfl, rfl, by decide⟩,
    c6_connect_non200_mapping c6req c6co c6hr "errbody" rfl rfl rfl (by decide)⟩

namespace Registry

theorem state_ext (a b : State) (hf : a.files = b.files) (hs : a.services = b.services)
    (hm : a.messages = b.messages) : a = b := by
  cases a
  cases b
  simp only at hf hs hm
  rw [hf, hs, hm]

end Registry

/-- C4: registration is idempotent.  If Register succeeds on a
FileDescriptorSet, registering the same set again on the resulting
registry also succeeds and returns the identical registry: the file,
service and message maps are unchanged, so the GetStats counts do not
double. -/
theorem c4_register_idempotent (r r1 : Registry.State) (fds : List Proto.FileD)
    (h : Registry.register r fds = Except.ok r1) :
    Registry.register r1 fds = Except.ok r1 ∧
      (∀ r2, Registry.register r1 fds = Except.ok r2 →
        Registry.getStats r2 = Registry.getStats r1) := by
  unfold Registry.register at h ⊢
  by_cases hok : Registry.newFilesOk fds = true
  · rw [if_pos hok] at h ⊢
    injection h with h1
    subst h1
    have hfold : fds.foldl Registry.registerFile (fds.foldl Registry.registerFile r) =
        fds.foldl Registry.registerFile r := by
      apply Registry.state_ext
      · rw [Registry.registerAll_files, Registry.registerAll_files,
          CMap.insertAll_idem _ _ (Registry.file_keys_nodup_of_newFilesOk fds hok)]
      · rw [Registry.registerAll_services, Registry.registerAll_services,
          CMap.insertAll_idem _ _ (Registry.svc_keys_nodup_of_newFilesOk fds hok)]
      · rw [Registry.registerAll_messages, Registry.registerAll_messages,
          CMap.insertAll_idem _ _ (Registry.msg_keys_nodup_of_newFilesOk fds hok)]
    refine ⟨by rw [hfold], ?_⟩
    intro r2 h2
    injection h2 with h3
    rw [← h3, hfold]
  · rw [if_neg hok] at h
    cases h

/-- The FileDescriptorSet of the C4 witness: one file with a service,
two messages (one with a nested message) and an enum. -/
def c4fds : List Proto.FileD :=
  [{ name := "test.proto", package := "test.v1",
     services :=
       [{ name := "TestService",
          methods := [{ name := "Call", inputType := "test.v1.In",
                        outputType := "test.v1.Out" }] }],
     messageTypes :=
       [Proto.MessageD.mk "In" [⟨"q", Proto.FieldType.tString, ""⟩]
          [Proto.MessageD.mk "Inner" [] []],
        Proto.MessageD.mk "Out" [] []],
     enumTypes := ["Kind"] }]

/-- The registry after the first registration of the C4 witness. -/
def c4r1 : Registry.State := c4fds.foldl Registry.registerFile Registry.new

/-- Witness for C4 at the concrete set c4fds. -/
theorem c4_register_idempotent_witness :
    Registry.register Registry.new c4fds = Except.ok c4r1 ∧
    (Registry.register c4r1 c4fds = Except.ok c4r1 ∧
      (∀ r2, Registry.register c4r1 c4fds = Except.ok r2 →
        Registry.getStats r2 = Registry.getStats c4r1)) :=
  ⟨by rfl, c4_register_idempotent Registry.new c4r1 c4fds (by rfl)⟩

namespace Invoker

/-- The single fold step of evictOldestConnection. -/
def scanStep (acc : String × Nat) (e : String × ConnMeta) : String × Nat :=
  if acc.1 = "" || e.2.lastUsed < acc.2 then (e.1, e.2.lastUsed) else acc

theorem oldestScan_eq_foldl (pool : List (String × ConnMeta)) :
    oldestScan pool = pool.foldl scanStep ("", 0) := rfl

theorem scanFrom_spec (pool : List (String × ConnMeta)) (k0 : String) (t0 : Nat)
    (hk0 : ¬ (k0 = "")) (hkeys : ∀ k ∈ CMap.keys pool, ¬ (k = "")) :
    (pool.foldl scanStep (k0, t0)).2 ≤ t0 ∧
    (∀ e ∈ pool, (pool.foldl scanStep (k0, t0)).2 ≤ e.2.lastUsed) ∧
    ((pool.foldl scanStep (k0, t0)).1 = k0 ∨
      (pool.foldl scanStep (k0, t0)).1 ∈ CMap.keys pool) ∧
    ¬ ((pool.foldl scanStep (k0, t0)).1 = "") := by
  induction pool generalizing k0 t0 with
  | nil => exact ⟨le_refl t0, by simp, Or.inl rfl, hk0⟩
  | cons e rest ih =>
      have hke : ¬ (e.1 = "") := hkeys e.1 (by simp [CMap.keys])
      have hkrest : ∀ k ∈ CMap.keys rest, ¬ (k = "") :=
        fun k hk => hkeys k (by simp [CMap.keys] at hk ⊢; right; exact hk)
      rw [List.foldl_cons]
      by_cases hlt : e.2.lastUsed < t0
      · have hstep : scanStep (k0, t0) e = (e.1, e.2.lastUsed) := by
          simp [scanStep, hlt]
        rw [hstep]
        obtain ⟨ha, hb, hc, hd⟩ := ih e.1 e.2.lastUsed hke hkrest
        refine ⟨le_trans ha (le_of_lt hlt), ?_, ?_, hd⟩
        · intro e' he'
          rcases List.mem_cons.mp he' with h | h
          · exact h ▸ ha
          · exact hb e' h
        · rcases hc with h | h
          · exact Or.inr (by simp [CMap.keys, h])
          · exact Or.inr (by simp [CMap.keys]; right; simpa [CMap.keys] using h)
      · have hstep : scanStep (k0, t0) e = (k0, t0) := by
          simp [scanStep, hk0, hlt]
        rw [hstep]
        obtain ⟨ha, hb, hc, hd⟩ := ih k0 t0 hk0 hkrest
        refine ⟨ha, ?_, ?_, hd⟩
        · intro e' he'
          rcases List.mem_cons.mp he' with h | h
          · have : t0 ≤ e.2.lastUsed := le_of_not_lt hlt
            exact h ▸ le_trans ha this
          · exact hb e' h
        · rcases hc with h | h
          · exact Or.inl h
          · exact Or.inr (by simp [CMap.keys] at h ⊢; right; exact h)

theorem oldestScan_spec (pool : List (String × ConnMeta)) (hne : pool ≠ [])
    (hkeys : ∀ k ∈ CMap.keys pool, ¬ (k = "")) :
    (oldestScan pool).1 ∈ CMap.keys pool ∧
    (∀ e ∈ pool, (oldestScan pool).2 ≤ e.2.lastUsed) ∧
    ¬ ((oldestScan pool).1 = "") := by
  match pool, hne with
  | e :: rest, _ =>
      have hke : ¬ (e.1 = "") := hkeys e.1 (by simp [CMap.keys])
      have hkrest : ∀ k ∈ CMap.keys rest, ¬ (k = "") :=
        fun k hk => hkeys k (by simp [CMap.keys] at hk ⊢; right; exact hk)
      have hstep : scanStep ("", 0) e = (e.1, e.2.lastUsed) := by
        simp [scanStep]
      rw [oldestScan_eq_foldl, List.foldl_cons, hstep]
      obtain ⟨ha, hb, hc, hd⟩ := scanFrom_spec rest e.1 e.2.lastUsed hke hkrest
      refine ⟨?_, ?_, hd⟩
      · rcases hc with h | h
        · simp [CMap.keys, h]
        · simp [CMap.keys]
          right
          simpa [CMap.keys] using h
      · intro e' he'
        rcases List.mem_cons.mp he' with h | h
        · exact h ▸ ha
        · exact hb e' h

theorem evictOldestPool_spec (pool : List (String × ConnMeta)) (hne : pool ≠ [])
    (hkeys : ∀ k ∈ CMap.keys pool, ¬ (k = "")) :
    evictOldestPool pool = CMap.erase (oldestScan pool).1 pool ∧
    (evictOldestPool pool).length + 1 = pool.length ∧
    (∀ e ∈ pool, (oldestScan pool).2 ≤ e.2.lastUsed) := by
  obtain ⟨hmem, hmin, hne2⟩ := oldestScan_spec pool hne hkeys
  have heq : evictOldestPool pool = CMap.erase (oldestScan pool).1 pool := by
    unfold evictOldestPool
    rw [if_neg hne2]
  refine ⟨heq, ?_, hmin⟩
  rw [heq]
  apply CMap.length_erase_of_mem
  rw [CMap.keys] at hmem
  obtain ⟨e, he, heq2⟩ := List.mem_map.mp hmem
  have := CMap.lookup_isSome_of_mem e.1 e.2 pool (by simpa using he)
  rw [heq2] at this
  exact this

end Invoker

namespace CMap

theorem mem_insert_cases (k : String) (v : α) (m : List (String × α)) (e : String × α)
    (h : e ∈ insert k v m) : e = (k, v) ∨ e ∈ m := by
  induction m with
  | nil =>
      simp [insert] at h
      exact Or.inl h
  | cons hd tl ih =>
      obtain ⟨k', v'⟩ := hd
      by_cases h2 : k' = k
      · simp only [insert, h2, if_true] at h
        rcases List.mem_cons.mp h with h3 | h3
        · exact Or.inl h3
        · exact Or.inr (List.mem_cons_of_mem _ h3)
      · simp only [insert, h2, if_false] at h
        rcases List.mem_cons.mp h with h3 | h3
        · exact Or.inr (h3 ▸ List.mem_cons_self _ _)
        · rcases ih h3 with h4 | h4
          · exact Or.inl h4
          · exact Or.inr (List.mem_cons_of_mem _ h4)

end CMap

namespace Invoker

theorem poolCleanup_nodup (ttl now : Nat) (pool : List (String × ConnMeta))
    (h : (CMap.keys pool).Nodup) : (CMap.keys (poolCleanup ttl now pool)).Nodup :=
  h.sublist (CMap.keys_filter_sublist _ pool)

theorem poolCleanup_length_le (ttl now : Nat) (pool : List (String × ConnMeta)) :
    (poolCleanup ttl now pool).length ≤ pool.length :=
  List.length_filter_le _ pool

theorem poolCleanup_mem (ttl now : Nat) (pool : List (String × ConnMeta))
    (e : String × ConnMeta) (h : e ∈ poolCleanup ttl now pool) :
    e ∈ pool ∧ isStale ttl now e.2 = false := by
  have := List.mem_filter.mp h
  refine ⟨this.1, ?_⟩
  have h2 := this.2
  simpa using h2

theorem poolCleanup_keys (ttl now : Nat) (pool : List (String × ConnMeta))
    (h : ∀ k ∈ CMap.keys pool, ¬ (k = "")) :
    ∀ k ∈ CMap.keys (poolCleanup ttl now pool), ¬ (k = "") :=
  fun k hk => h k (List.Sublist.mem hk (CMap.keys_filter_sublist _ pool))

theorem erase_keys_ne (k0 : String) (pool : List (String × ConnMeta))
    (h : ∀ k ∈ CMap.keys pool, ¬ (k = "")) :
    ∀ k ∈ CMap.keys (CMap.erase k0 pool), ¬ (k = "") :=
  fun k hk => h k (List.Sublist.mem hk (CMap.keys_erase_sublist k0 pool))

theorem getConnectionMiss_spec (inv : InvokerState) (endpoint key : String) (now : Nat)
    (dialErr : Option String)
    (hnodup : (CMap.keys inv.connections).Nodup)
    (hkeys : ∀ k ∈ CMap.keys inv.connections, ¬ (k = ""))
    (hmax : 1 ≤ inv.maxConnections)
    (hlen : (inv.connections.length : Int) ≤ inv.maxConnections)
    (hnotin : CMap.lookup key inv.connections = none) :
    (CMap.keys (getConnectionMiss inv endpoint key now dialErr).2.connections).Nodup ∧
    (((getConnectionMiss inv endpoint key now dialErr).2.connections.length : Int) ≤
      inv.maxConnections) ∧
    (∀ e ∈ (getConnectionMiss inv endpoint key now dialErr).2.connections,
      e = (key, ⟨now, now, ConnState.ready⟩) ∨ e ∈ inv.connections) ∧
    (∀ msg, (getConnectionMiss inv endpoint key now dialErr).1 = Except.error msg →
      CMap.lookup key (getConnectionMiss inv endpoint key now dialErr).2.connections =
        none) := by
  unfold getConnectionMiss
  by_cases hcap : (inv.connections.length : Int) ≥ inv.maxConnections
  · rw [if_pos hcap]
    have hne : inv.connections ≠ [] := by
      intro hx
      rw [hx] at hcap
      simp at hcap
      omega
    obtain ⟨heq, hlen2, _⟩ := evictOldestPool_spec inv.connections hne hkeys
    have hplen : (evictOldestConnection inv).connections.length + 1 =
        inv.connections.length := by
      simp only [evictOldestConnection]
      exact hlen2
    have hpnodup : (CMap.keys (evictOldestConnection inv).connections).Nodup := by
      simp only [evictOldestConnection]
      rw [heq]
      exact CMap.keys_nodup_erase _ _ hnodup
    have hpsub : ∀ e ∈ (evictOldestConnection inv).connections, e ∈ inv.connections := by
      simp only [evictOldestConnection]
      rw [heq]
      exact fun e he => CMap.mem_of_mem_erase _ _ _ he
    have hpnone : CMap.lookup key (evictOldestConnection inv).connections = none := by
      simp only [evictOldestConnection]
      rw [heq]
      exact CMap.lookup_none_erase key _ _ hnotin
    cases dialErr with
    | some e =>
        refine ⟨hpnodup, ?_, fun e2 he2 => Or.inr (hpsub e2 he2), fun msg _ => hpnone⟩
        show ((evictOldestConnection inv).connections.length : Int) ≤ inv.maxConnections
        omega
    | none =>
        have hinslen := CMap.length_insert key
          (⟨now, now, ConnState.ready⟩ : ConnMeta) (evictOldestConnection inv).connections
        rw [hpnone] at hinslen
        simp only [Option.isSome_none, Bool.false_eq_true, if_false] at hinslen
        refine ⟨CMap.keys_nodup_insert _ _ _ hpnodup, ?_, ?_, ?_⟩
        · show ((CMap.insert key (⟨now, now, ConnState.ready⟩ : ConnMeta)
              (evictOldestConnection inv).connections).length : Int) ≤ inv.maxConnections
          rw [hinslen]
          omega
        · intro e2 he2
          rcases CMap.mem_insert_cases _ _ _ _ he2 with h | h
          · exact Or.inl h
          · exact Or.inr (hpsub e2 h)
        · intro msg hmsg
          cases hmsg
  · rw [if_neg hcap]
    push_neg at hcap
    cases dialErr with
    | some e =>
        exact ⟨hnodup, hlen, fun e2 he2 => Or.inr he2, fun msg _ => hnotin⟩
    | none =>
        have hinslen := CMap.length_insert key
          (⟨now, now, ConnState.ready⟩ : ConnMeta) inv.connections
        rw [hnotin] at hinslen
        simp only [Option.isSome_none, Bool.false_eq_true, if_false] at hinslen
        refine ⟨CMap.keys_nodup_insert _ _ _ hnodup, ?_, ?_, ?_⟩
        · show ((CMap.insert key (⟨now, now, ConnState.ready⟩ : ConnMeta)
              inv.connections).length : Int) ≤ inv.maxConnections
          rw [hinslen]
          omega
        · intro e2 he2
          rcases CMap.mem_insert_cases _ _ _ _ he2 with h | h
          · exact Or.inl h
          · exact Or.inr h
        · intro msg hmsg
          cases hmsg


end Invoker

namespace Invoker

theorem connKey_ne_empty (endpoint : String) (useTLS : Bool) (serverName : String) :
    ¬ (connKey endpoint useTLS serverName = "") := by
  intro h
  have hlen := congrArg String.length h
  cases useTLS
  · simp [connKey, String.length_append] at hlen
    exact (by decide : ¬ (("false" : String).length = 0)) hlen.1.1.2
  · simp [connKey, String.length_append] at hlen
    exact (by decide : ¬ (("true" : String).length = 0)) hlen.1.1.2

end Invoker

/-- C5 (amended): provided max_connections is at least 1 (true of every
constructor the server uses; a pool configured with max_connections ≤ 0
still keeps one entry, see the counterexample), getConnection preserves
the pool invariants: keys stay distinct (at most one channel per
(endpoint, tls, server_name) key), the pool never exceeds
max_connections, every surviving entry other than the requested key is
an original entry that was not stale (stale and shutdown entries are
swept before the lookup), a failed dial leaves the requested key
uncached and returns the error, and on eviction the entry removed by
evictOldestPool is one with the oldest last_used time. -/
theorem c5_pool_invariants (inv : Invoker.InvokerState) (endpoint : String)
    (useTLS : Bool) (serverName : String) (now : Nat) (dialErr : Option String)
    (hnodup : (CMap.keys inv.connections).Nodup)
    (hkeys : ∀ k ∈ CMap.keys inv.connections, ¬ (k = ""))
    (hmax : 1 ≤ inv.maxConnections)
    (hlen : (inv.connections.length : Int) ≤ inv.maxConnections) :
    ((CMap.keys
        (Invoker.getConnection inv endpoint useTLS serverName now
          dialErr).2.connections).Nodup ∧
      (((Invoker.getConnection inv endpoint useTLS serverName now
          dialErr).2.connections.length : Int) ≤ inv.maxConnections) ∧
      (∀ k c,
        (k, c) ∈ (Invoker.getConnection inv endpoint useTLS serverName now
            dialErr).2.connections →
        ¬ (k = Invoker.connKey endpoint useTLS serverName) →
        ((k, c) ∈ inv.connections ∧
          Invoker.isStale inv.connectionTTL now c = false)) ∧
      (∀ msg,
        (Invoker.getConnection inv endpoint useTLS serverName now dialErr).1 =
          Except.error msg →
        CMap.lookup (Invoker.connKey endpoint useTLS serverName)
          (Invoker.getConnection inv endpoint useTLS serverName now
            dialErr).2.connections = none)) ∧
    (∀ pool : List (String × Invoker.ConnMeta), pool ≠ [] →
      (∀ k ∈ CMap.keys pool, ¬ (k = "")) →
      Invoker.evictOldestPool pool =
        CMap.erase (Invoker.oldestScan pool).1 pool ∧
      (∀ e ∈ pool, (Invoker.oldestScan pool).2 ≤ e.2.lastUsed)) := by
  refine ⟨?_, ?_⟩
  swap
  · intro pool hne hk
    obtain ⟨h1, _, h3⟩ := Invoker.evictOldestPool_spec pool hne hk
    exact ⟨h1, h3⟩
  have hkey := Invoker.connKey_ne_empty endpoint useTLS serverName
  have hFnodup : (CMap.keys (Invoker.cleanupStaleConnections inv now).connections).Nodup :=
    Invoker.poolCleanup_nodup _ _ _ hnodup
  have hFkeys : ∀ k ∈ CMap.keys (Invoker.cleanupStaleConnections inv now).connections,
      ¬ (k = "") :=
    Invoker.poolCleanup_keys _ _ _ hkeys
  have hFlenNat : (Invoker.cleanupStaleConnections inv now).connections.length ≤
      inv.connections.length :=
    Invoker.poolCleanup_length_le _ _ _
  have hFlen : (((Invoker.cleanupStaleConnections inv now).connections.length : Int) ≤
      inv.maxConnections) := by omega
  have hFmem : ∀ e ∈ (Invoker.cleanupStaleConnections inv now).connections,
      e ∈ inv.connections ∧ Invoker.isStale inv.connectionTTL now e.2 = false :=
    fun e he => Invoker.poolCleanup_mem _ _ _ e he
  cases hlk : CMap.lookup (Invoker.connKey endpoint useTLS serverName)
      (Invoker.cleanupStaleConnections inv now).connections with
  | none =>
      have hrun : Invoker.getConnection inv endpoint useTLS serverName now dialErr =
          Invoker.getConnectionMiss (Invoker.cleanupStaleConnections inv now) endpoint
            (Invoker.connKey endpoint useTLS serverName) now dialErr := by
        simp only [Invoker.getConnection]
        rw [hlk]
      obtain ⟨s1, s2, s3, s4⟩ := Invoker.getConnectionMiss_spec
        (Invoker.cleanupStaleConnections inv now) endpoint
        (Invoker.connKey endpoint useTLS serverName) now dialErr
        hFnodup hFkeys hmax hFlen hlk
      rw [hrun]
      refine ⟨s1, s2, ?_, s4⟩
      intro k c hmem hne
      rcases s3 (k, c) hmem with h | h
      · exact absurd (congrArg Prod.fst h) hne
      · exact hFmem (k, c) h
  | some meta =>
      by_cases hvalid : meta.state ≠ Invoker.ConnState.shutdown ∧
          now - meta.createdAt < (Invoker.cleanupStaleConnections inv now).connectionTTL
      · have hrun : Invoker.getConnection inv endpoint useTLS serverName now dialErr =
            (Except.ok (Invoker.connKey endpoint useTLS serverName),
              { Invoker.cleanupStaleConnections inv now with
                  connections :=
                    CMap.insert (Invoker.connKey endpoint useTLS serverName)
                      { meta with lastUsed := now }
                      (Invoker.cleanupStaleConnections inv now).connections }) := by
          simp only [Invoker.getConnection]
          simp only [hlk]
          rw [if_pos hvalid]
        rw [hrun]
        have hsome : (CMap.lookup (Invoker.connKey endpoint useTLS serverName)
            (Invoker.cleanupStaleConnections inv now).connections).isSome := by
          rw [hlk]
          rfl
        have hinslen := CMap.length_insert (Invoker.connKey endpoint useTLS serverName)
          ({ meta with lastUsed := now })
          (Invoker.cleanupStaleConnections inv now).connections
        rw [if_pos hsome] at hinslen
        refine ⟨CMap.keys_nodup_insert _ _ _ hFnodup, ?_, ?_, ?_⟩
        · show ((CMap.insert (Invoker.connKey endpoint useTLS serverName)
              { meta with lastUsed := now }
              (Invoker.cleanupStaleConnections inv now).connections).length : Int) ≤
            inv.maxConnections
          rw [hinslen]
          omega
        · intro k c hmem hne
          have h1 : ((k, c) : String × Invoker.ConnMeta) ∈
              (Invoker.cleanupStaleConnections inv now).connections :=
            CMap.mem_insert_of_ne _ _ _ _ hmem hne
          exact hFmem (k, c) h1
        · intro msg hmsg
          cases hmsg
      · have hrun : Invoker.getConnection inv endpoint useTLS serverName now dialErr =
            Invoker.getConnectionMiss
              { Invoker.cleanupStaleConnections inv now with
                  connections :=
                    CMap.erase (Invoker.connKey endpoint useTLS serverName)
                      (Invoker.cleanupStaleConnections inv now).connections }
              endpoint (Invoker.connKey endpoint useTLS serverName) now dialErr := by
          simp only [Invoker.getConnection]
          simp only [hlk]
          rw [if_neg hvalid]
        have hEnodup : (CMap.keys (CMap.erase
            (Invoker.connKey endpoint useTLS serverName)
            (Invoker.cleanupStaleConnections inv now).connections)).Nodup :=
          CMap.keys_nodup_erase _ _ hFnodup
        have hEkeys : ∀ k ∈ CMap.keys (CMap.erase
            (Invoker.connKey endpoint useTLS serverName)
            (Invoker.cleanupStaleConnections inv now).connections), ¬ (k = "") :=
          Invoker.erase_keys_ne _ _ hFkeys
        have hElen : (((CMap.erase (Invoker.connKey endpoint useTLS serverName)
            (Invoker.cleanupStaleConnections inv now).connections).length : Int) ≤
            inv.maxConnections) := by
          have := CMap.length_erase_le (Invoker.connKey endpoint useTLS serverName)
            (Invoker.cleanupStaleConnections inv now).connections
          omega
        have hEnone : CMap.lookup (Invoker.connKey endpoint useTLS serverName)
            (CMap.erase (Invoker.connKey endpoint useTLS serverName)
              (Invoker.cleanupStaleConnections inv now).connections) = none :=
          CMap.lookup_erase_self _ _ hFnodup
        obtain ⟨s1, s2, s3, s4⟩ := Invoker.getConnectionMiss_spec
          { Invoker.cleanupStaleConnections inv now with
              connections :=
                CMap.erase (Invoker.connKey endpoint useTLS serverName)
                  (Invoker.cleanupStaleConnections inv now).connections }
          endpoint (Invoker.connKey endpoint useTLS serverName) now dialErr
          hEnodup hEkeys hmax hElen hEnone
        rw [hrun]
        refine ⟨s1, s2, ?_, s4⟩
        intro k c hmem hne
        rcases s3 (k, c) hmem with h | h
        · exact absurd (congrArg Prod.fst h) hne
        · exact hFmem (k, c) (CMap.mem_of_mem_erase _ _ _ h)

/-- Counterexample to C5 as stated: NewWithLimits admits
max_connections = 0, and because the capacity branch evicts only one
entry before inserting, a successful dial leaves the pool with one entry
— more than max_connections — after a getConnection call. -/
theorem c5_counterexample :
    ((Invoker.getConnection (Invoker.newWithLimits 0 300) "e" false "" 0
        none).2.connections.length : Int) >
      (Invoker.newWithLimits 0 300).maxConnections := by
  decide

/-- Witness for C5 on a fresh default invoker dialing one endpoint. -/
theorem c5_pool_invariants_witness :
    ((CMap.keys Invoker.new.connections).Nodup ∧
      (∀ k ∈ CMap.keys Invoker.new.connections, ¬ (k = "")) ∧
      1 ≤ Invoker.new.maxConnections ∧
      ((Invoker.new.connections.length : Int) ≤ Invoker.new.maxConnections)) ∧
    (((CMap.keys
        (Invoker.getConnection Invoker.new "e" false "" 0
          none).2.connections).Nodup ∧
      (((Invoker.getConnection Invoker.new "e" false "" 0
          none).2.connections.length : Int) ≤ Invoker.new.maxConnections) ∧
      (∀ k c,
        (k, c) ∈ (Invoker.getConnection Invoker.new "e" false "" 0
            none).2.connections →
        ¬ (k = Invoker.connKey "e" false "") →
        ((k, c) ∈ Invoker.new.connections ∧
          Invoker.isStale Invoker.new.connectionTTL 0 c = false)) ∧
      (∀ msg,
        (Invoker.getConnection Invoker.new "e" false "" 0 none).1 =
          Except.error msg →
        CMap.lookup (Invoker.connKey "e" false "")
          (Invoker.getConnection Invoker.new "e" false "" 0
            none).2.connections = none)) ∧
    (∀ pool : List (String × Invoker.ConnMeta), pool ≠ [] →
      (∀ k ∈ CMap.keys pool, ¬ (k = "")) →
      Invoker.evictOldestPool pool =
        CMap.erase (Invoker.oldestScan pool).1 pool ∧
      (∀ e ∈ pool, (Invoker.oldestScan pool).2 ≤ e.2.lastUsed))) :=
  ⟨⟨by decide, by decide, by decide, by decide⟩,
    c5_pool_invariants Invoker.new "e" false "" 0 none
      (by decide) (by decide) (by decide) (by decide)⟩

namespace Session

theorem getOrCreate_fresh (m : Manager) (hdr : String) (rb : List Nat) (now : Nat)
    (hfresh : hdr = "" ∨ CMap.lookup hdr m.sessions = none) :
    getOrCreate m hdr rb now =
      ({ registry := Registry.new, invoker := Invoker.new,
         createdAt := now, lastUsed := now },
        generateID rb,
        { m with
            sessions :=
              CMap.insert (generateID rb)
                { registry := Registry.new, invoker := Invoker.new,
                  createdAt := now, lastUsed := now } m.sessions }) := by
  by_cases hhdr : hdr = ""
  · subst hhdr
    simp [getOrCreate]
  · rcases hfresh with h | h
    · exact absurd h hhdr
    · simp [getOrCreate, hhdr, h]

theorem getOrCreate_hit (m : Manager) (hdr : String) (rb : List Nat) (now : Nat)
    (st : SessState) (hhdr : ¬ (hdr = "")) (hlk : CMap.lookup hdr m.sessions = some st) :
    getOrCreate m hdr rb now =
      ({ st with lastUsed := now }, hdr,
        { m with
            sessions := CMap.insert hdr { st with lastUsed := now } m.sessions }) := by
  simp [getOrCreate, hhdr, hlk]

end Session

namespace Server

theorem loadProtos_header (m : Session.Manager) (hdr : String) (rb : List Nat)
    (now : Nat) (src : LoadOutcome) (out : RpcOut LoadProtosResponse)
    (m2 : Session.Manager) (h : loadProtos m hdr rb now src = Except.ok (out, m2)) :
    out.sessionHeader = (Session.getOrCreate m hdr rb now).2.1 := by
  rcases src with _ | src2
  · simp only [loadProtos] at h
    cases h
  · rcases src2 with e | fds
    · simp only [loadProtos] at h
      injection h with h1
      injection h1 with ha hb
      rw [← ha]
    · simp only [loadProtos] at h
      cases hreg : Registry.register (Session.getOrCreate m hdr rb now).1.registry fds with
      | error e =>
          simp only [hreg] at h
          injection h with h1
          injection h1 with ha hb
          rw [← ha]
      | ok reg' =>
          simp only [hreg] at h
          injection h with h1
          injection h1 with ha hb
          rw [← ha]

theorem listServices_header (m : Session.Manager) (hdr : String) (rb : List Nat)
    (now : Nat) :
    (listServicesHandler m hdr rb now).1.sessionHeader =
      (Session.getOrCreate m hdr rb now).2.1 := rfl

theorem getServiceSchema_header (m : Session.Manager) (hdr : String) (rb : List Nat)
    (now : Nat) (sname : String) (out : RpcOut GetServiceSchemaResponse)
    (m2 : Session.Manager)
    (h : getServiceSchemaHandler m hdr rb now sname = Except.ok (out, m2)) :
    out.sessionHeader = (Session.getOrCreate m hdr rb now).2.1 := by
  simp only [getServiceSchemaHandler] at h
  by_cases hn : sname = ""
  · rw [if_pos hn] at h
    cases h
  · rw [if_neg hn] at h
    cases hs : Registry.getServiceSchema (Session.getOrCreate m hdr rb now).1.registry
        sname with
    | error e =>
        simp only [hs] at h
        injection h with h1
        injection h1 with ha hb
        rw [← ha]
    | ok pr =>
        obtain ⟨info, schemas⟩ := pr
        simp only [hs] at h
        injection h with h1
        injection h1 with ha hb
        rw [← ha]

theorem invokeGRPC_header (m : Session.Manager) (hdr : String) (rb : List Nat)
    (now : Nat) (req : InvokeGRPCRequest) (co : Invoker.ConnectOracle)
    (gco : Invoker.GrpcOracle) (out : RpcOut InvokeGRPCResponse) (m2 : Session.Manager)
    (h : invokeGRPCHandler m hdr rb now req co gco = Except.ok (out, m2)) :
    out.sessionHeader = (Session.getOrCreate m hdr rb now).2.1 := by
  simp only [invokeGRPCHandler] at h
  by_cases h1 : req.endpoint = ""
  · rw [if_pos h1] at h
    cases h
  · rw [if_neg h1] at h
    by_cases h2 : req.service = ""
    · rw [if_pos h2] at h
      cases h
    · rw [if_neg h2] at h
      by_cases h3 : req.method = ""
      · rw [if_pos h3] at h
        cases h
      · rw [if_neg h3] at h
        cases hmd : Registry.getMethodDescriptor
            (Session.getOrCreate m hdr rb now).1.registry req.service req.method with
        | error e =>
            simp only [hmd] at h
            injection h with hx
            injection hx with ha hb
            rw [← ha]
        | ok md =>
            simp only [hmd] at h
            by_cases hstr : (md.clientStreaming || md.serverStreaming) = true
            · rw [if_pos hstr] at h
              injection h with hx
              injection hx with ha hb
              rw [← ha]
            · rw [if_neg hstr] at h
              rcases hiu : Invoker.invokeUnary
                  (Session.getOrCreate m hdr rb now).1.invoker
                  { endpoint := req.endpoint, serviceName := req.service,
                    methodName := req.method,
                    requestJSON :=
                      if req.requestJson ≠ "" then req.requestJson else "\x7b\x7d",
                    useTLS := req.useTls, serverName := req.serverName,
                    timeoutSeconds :=
                      if req.timeoutSeconds ≤ 0 then 30 else req.timeoutSeconds,
                    metadata := req.metadata, methodDesc := some md,
                    transport := req.transport } now co gco with ⟨res, inv2⟩
              cases res with
              | error e =>
                  simp only [hiu] at h
                  injection h with hx
                  injection hx with ha hb
                  rw [← ha]
              | ok ir =>
                  simp only [hiu] at h
                  injection h with hx
                  injection hx with ha hb
                  rw [← ha]

end Server

/-- Counterexample to C1 as stated: GetOrCreate never compares the
freshly generated identifier with the supplied one, so when the 16
random bytes hex-encode exactly to the supplied unknown identifier the
returned identifier equals the input instead of differing from it. -/
theorem c1_counterexample :
    CMap.lookup "00000000000000000000000000000000"
      (Session.newManager 0).sessions = none ∧
    ¬ ("00000000000000000000000000000000" = "") ∧
    (Session.getOrCreate (Session.newManager 0)
        "00000000000000000000000000000000" (List.replicate 16 0) 5).2.1 =
      "00000000000000000000000000000000" := by
  refine ⟨rfl, by decide, ?_⟩
  decide

/-- C1 (amended): for every RPC whose incoming X-Session-ID is empty or
unknown, GetOrCreate mints a fresh session — new Registry, new Invoker —
under the hex encoding of the 16 random bytes: a non-empty identifier of
32 hex characters, stored in the session map under that identifier; the
new identifier differs from the supplied one whenever the generated
encoding does (the code performs no collision check, so equality is
possible only in the 2^-128 event that the random bytes encode to the
supplied identifier); and all four RPC handlers write the effective
identifier into the X-Session-ID header of every response they return. -/
theorem c1_session_minting (m : Session.Manager) (sid : String) (rb : List Nat)
    (now : Nat)
    (hfresh : sid = "" ∨ CMap.lookup sid m.sessions = none)
    (hlen : rb.length = 16) :
    ((Session.getOrCreate m sid rb now).2.1 = Session.generateID rb ∧
      ((Session.getOrCreate m sid rb now).2.1).length = 32 ∧
      ¬ ((Session.getOrCreate m sid rb now).2.1 = "") ∧
      (∀ c ∈ ((Session.getOrCreate m sid rb now).2.1).data, c ∈ Session.hextable) ∧
      (Session.getOrCreate m sid rb now).1.registry = Registry.new ∧
      (Session.getOrCreate m sid rb now).1.invoker = Invoker.new ∧
      CMap.lookup (Session.getOrCreate m sid rb now).2.1
          (Session.getOrCreate m sid rb now).2.2.sessions =
        some (Session.getOrCreate m sid rb now).1 ∧
      (¬ (Session.generateID rb = sid) →
        ¬ ((Session.getOrCreate m sid rb now).2.1 = sid))) ∧
    ((∀ src out m2, Server.loadProtos m sid rb now src = Except.ok (out, m2) →
        out.sessionHeader = (Session.getOrCreate m sid rb now).2.1) ∧
      ((Server.listServicesHandler m sid rb now).1.sessionHeader =
        (Session.getOrCreate m sid rb now).2.1) ∧
      (∀ sname out m2,
        Server.getServiceSchemaHandler m sid rb now sname = Except.ok (out, m2) →
        out.sessionHeader = (Session.getOrCreate m sid rb now).2.1) ∧
      (∀ req co gco out m2,
        Server.invokeGRPCHandler m sid rb now req co gco = Except.ok (out, m2) →
        out.sessionHeader = (Session.getOrCreate m sid rb now).2.1)) := by
  have hgc := Session.getOrCreate_fresh m sid rb now hfresh
  have hrbne : rb ≠ [] := by
    intro hx
    rw [hx] at hlen
    simp at hlen
  refine ⟨⟨?_, ?_, ?_, ?_, ?_, ?_, ?_, ?_⟩,
    fun src out m2 h => Server.loadProtos_header m sid rb now src out m2 h,
    Server.listServices_header m sid rb now,
    fun sname out m2 h => Server.getServiceSchema_header m sid rb now sname out m2 h,
    fun req co gco out m2 h =>
      Server.invokeGRPC_header m sid rb now req co gco out m2 h⟩
  · rw [hgc]
  · rw [hgc]
    show (Session.generateID rb).length = 32
    unfold Session.generateID
    rw [Session.hexEncode_length, hlen]
  · rw [hgc]
    exact Session.hexEncode_ne_empty rb hrbne
  · rw [hgc]
    exact Session.hexEncode_chars rb
  · rw [hgc]
  · rw [hgc]
  · rw [hgc]
    exact CMap.lookup_insert_self _ _ _
  · intro hne hx
    rw [hgc] at hx
    exact hne hx

/-- Witness for C1: an empty incoming identifier on an empty manager. -/
theorem c1_session_minting_witness :
    (((("" : String) = "") ∨
        CMap.lookup "" (Session.newManager 0).sessions = none) ∧
      (List.replicate 16 1).length = 16) ∧
    (((Session.getOrCreate (Session.newManager 0) "" (List.replicate 16 1) 5).2.1 =
        Session.generateID (List.replicate 16 1) ∧
      ((Session.getOrCreate (Session.newManager 0) "" (List.replicate 16 1) 5).2.1).length
          = 32 ∧
      ¬ ((Session.getOrCreate (Session.newManager 0) "" (List.replicate 16 1) 5).2.1 =
          "") ∧
      (∀ c ∈ ((Session.getOrCreate (Session.newManager 0) "" (List.replicate 16 1)
          5).2.1).data, c ∈ Session.hextable) ∧
      (Session.getOrCreate (Session.newManager 0) "" (List.replicate 16 1)
          5).1.registry = Registry.new ∧
      (Session.getOrCreate (Session.newManager 0) "" (List.replicate 16 1)
          5).1.invoker = Invoker.new ∧
      CMap.lookup
          (Session.getOrCreate (Session.newManager 0) "" (List.replicate 16 1) 5).2.1
          (Session.getOrCreate (Session.newManager 0) "" (List.replicate 16 1)
            5).2.2.sessions =
        some (Session.getOrCreate (Session.newManager 0) "" (List.replicate 16 1) 5).1 ∧
      (¬ (Session.generateID (List.replicate 16 1) = "") →
        ¬ ((Session.getOrCreate (Session.newManager 0) "" (List.replicate 16 1)
            5).2.1 = ""))) ∧
    ((∀ src out m2,
        Server.loadProtos (Session.newManager 0) "" (List.replicate 16 1) 5 src =
          Except.ok (out, m2) →
        out.sessionHeader =
          (Session.getOrCreate (Session.newManager 0) "" (List.replicate 16 1) 5).2.1) ∧
      ((Server.listServicesHandler (Session.newManager 0) "" (List.replicate 16 1)
          5).1.sessionHeader =
        (Session.getOrCreate (Session.newManager 0) "" (List.replicate 16 1) 5).2.1) ∧
      (∀ sname out m2,
        Server.getServiceSchemaHandler (Session.newManager 0) "" (List.replicate 16 1) 5
            sname = Except.ok (out, m2) →
        out.sessionHeader =
          (Session.getOrCreate (Session.newManager 0) "" (List.replicate 16 1) 5).2.1) ∧
      (∀ req co gco out m2,
        Server.invokeGRPCHandler (Session.newManager 0) "" (List.replicate 16 1) 5 req
            co gco = Except.ok (out, m2) →
        out.sessionHeader =
          (Session.getOrCreate (Session.newManager 0) "" (List.replicate 16 1)
            5).2.1))) :=
  ⟨⟨Or.inl rfl, by decide⟩,
    c1_session_minting (Session.newManager 0) "" (List.replicate 16 1) 5
      (Or.inl rfl) (by decide)⟩

namespace Registry

theorem svcPairs_length (f : Proto.FileD) :
    (svcPairs f).length = f.services.length := by
  simp [svcPairs]

theorem flat_svc_length (fds : List Proto.FileD) :
    (fds.flatMap svcPairs).length = (Loader.getDescriptorInfo fds).services.length := by
  induction fds with
  | nil => rfl
  | cons f fds ih =>
      simp only [List.flatMap_cons, List.length_append, svcPairs_length, ih,
        Loader.getDescriptorInfo] at *
      simp [Loader.getDescriptorInfo, List.flatMap_cons]

theorem listServices_length (r : State) :
    (listServices r).length = r.services.length := by
  simp [listServices]

theorem register_ok_inv (r : State) (fds : List Proto.FileD) (reg' : State)
    (h : register r fds = Except.ok reg') :
    newFilesOk fds = true ∧ reg' = fds.foldl registerFile r := by
  unfold register at h
  by_cases hok : newFilesOk fds = true
  · rw [if_pos hok] at h
    injection h with h1
    exact ⟨hok, h1.symm⟩
  · rw [if_neg hok] at h
    cases h

theorem fresh_register_services_length (fds : List Proto.FileD)
    (hok : newFilesOk fds = true) :
    (fds.foldl registerFile new).services.length = (fds.flatMap svcPairs).length := by
  rw [registerAll_services]
  have h := CMap.length_insertAll_fresh (fds.flatMap svcPairs) ([] : List (String × IndexedService))
    (svc_keys_nodup_of_newFilesOk fds hok) (fun k _ => rfl)
  rw [show Registry.new.services = ([] : List (String × IndexedService)) from rfl, h]
  simp

end Registry

/-- C7 (amended): on a fresh session, after a successful LoadProtos the
ListServices call bearing the echoed session identifier returns a list
whose length equals the reported service_count — the flat count of
GetDescriptorInfo equals the number of services indexed in the session
registry, because a successful Register forbids duplicate service names;
the list is therefore non-empty exactly when the loaded set declares at
least one service (the counterexample shows a successful LoadProtos of a
service-free file followed by an empty ListServices). -/
theorem c7_count_equality (m : Session.Manager) (hdr : String) (rb rb2 : List Nat)
    (now now2 : Nat) (fds : List Proto.FileD)
    (out : Server.RpcOut Server.LoadProtosResponse) (m2 : Session.Manager)
    (hfresh : hdr = "" ∨ CMap.lookup hdr m.sessions = none)
    (hrb : rb ≠ [])
    (hload : Server.loadProtos m hdr rb now (some (Except.ok fds)) = Except.ok (out, m2))
    (hsucc : out.msg.success = true) :
    ((Server.listServicesHandler m2 out.sessionHeader rb2
        now2).1.msg.services).length = out.msg.serviceCount := by
  have hgc := Session.getOrCreate_fresh m hdr rb now hfresh
  simp only [Server.loadProtos] at hload
  rw [hgc] at hload
  dsimp only at hload
  cases hreg : Registry.register Registry.new fds with
  | error e =>
      simp only [hreg] at hload
      injection hload with h1
      injection h1 with ha hb
      rw [← ha] at hsucc
      simp at hsucc
  | ok reg' =>
      simp only [hreg] at hload
      injection hload with h1
      injection h1 with ha hb
      obtain ⟨hok, hfold⟩ := Registry.register_ok_inv Registry.new fds reg' hreg
      rw [← ha, ← hb]
      have hgid : ¬ (Session.generateID rb = "") := Session.hexEncode_ne_empty rb hrb
      dsimp only
      simp only [Server.listServicesHandler]
      rw [Session.getOrCreate_hit _ _ rb2 now2 _ hgid (CMap.lookup_insert_self _ _ _)]
      dsimp only
      rw [Registry.listServices_length, hfold,
        Registry.fresh_register_services_length fds hok, Registry.flat_svc_length]

/-- A descriptor set with one file and no services, as buf build
produces for a proto file declaring only messages. -/
def c7cxFds : List Proto.FileD :=
  [{ name := "a.proto", package := "p",
     messageTypes := [Proto.MessageD.mk "M" [] []] }]

/-- The C7 counterexample run: LoadProtos of the service-free set on a
fresh session. -/
def c7cxRun : Except String (Server.RpcOut Server.LoadProtosResponse × Session.Manager) :=
  Server.loadProtos (Session.newManager 0) "" (List.replicate 16 0) 0
    (some (Except.ok c7cxFds))

/-- Counterexample to C7 as stated: LoadProtos succeeds (success = true,
service_count = 0) yet ListServices on the same session returns the
empty list, refuting the claimed non-emptiness. -/
theorem c7_counterexample :
    (c7cxRun.toOption.map (fun pr => pr.1.msg.success) = some true) ∧
    (c7cxRun.toOption.map (fun pr => pr.1.msg.serviceCount) = some 0) ∧
    (c7cxRun.toOption.map
        (fun pr =>
          (Server.listServicesHandler pr.2 pr.1.sessionHeader [] 7).1.msg.services) =
      some []) := by
  refine ⟨rfl, rfl, rfl⟩

/-- The descriptor set of the C7 witness: one file with one service. -/
def c7wFds : List Proto.FileD :=
  [{ name := "test.proto", package := "test.v1",
     services := [{ name := "TestService" }] }]

/-- The C7 witness run. -/
def c7wRun : Except String (Server.RpcOut Server.LoadProtosResponse × Session.Manager) :=
  Server.loadProtos (Session.newManager 0) "" (List.replicate 16 2) 3
    (some (Except.ok c7wFds))

/-- The response of the C7 witness run. -/
def c7wOut : Server.RpcOut Server.LoadProtosResponse :=
  (c7wRun.toOption.map Prod.fst).getD ⟨{ success := false }, ""⟩

/-- The manager after the C7 witness run. -/
def c7wM2 : Session.Manager :=
  (c7wRun.toOption.map Prod.snd).getD (Session.newManager 0)

/-- Witness for C7 at the concrete one-service set. -/
theorem c7_count_equality_witness :
    ((("" : String) = "" ∨ CMap.lookup "" (Session.newManager 0).sessions = none) ∧
      List.replicate 16 2 ≠ [] ∧
      Server.loadProtos (Session.newManager 0) "" (List.replicate 16 2) 3
          (some (Except.ok c7wFds)) = Except.ok (c7wOut, c7wM2) ∧
      c7wOut.msg.success = true) ∧
    ((Server.listServicesHandler c7wM2 c7wOut.sessionHeader [] 9).1.msg.services).length
      = c7wOut.msg.serviceCount :=
  ⟨⟨Or.inl rfl, by decide, by rfl, by rfl⟩,
    c7_count_equality (Session.newManager 0) "" (List.replicate 16 2) [] 3 9 c7wFds
      c7wOut c7wM2 (Or.inl rfl) (by decide) (by rfl) (by rfl)⟩
